import Mathlib

/-!
Verification development for the automated remediation pipeline
(backend orchestrator, bug classifier, fix engine, status manager, event bus).

The Python sources are shallowly embedded:
pure functions become Lean functions, stateful methods become explicit
state passing, file-system access becomes an explicit `FS` value, external
collaborators (git, test runner, the Groq repair oracle, ruff, the wall
clock) become parameters, and code paths that can raise exceptions return
`Except`.  Character data is modeled as `List Char` (`Str`), matching
Python's `str` as a sequence of characters.
-/

set_option autoImplicit false

abbrev Str := List Char

/-- Shorthand to write embedded string constants. -/
def toL (s : String) : Str := s.toList

/-- Python's whitespace set for `str.strip` / `\s` (space, tab, LF, CR, VT, FF). -/
def isPyWs (c : Char) : Bool :=
  c = ' ' || c = '\t' || c = '\n' || c = '\r' || c = Char.ofNat 11 || c = Char.ofNat 12

/-- Python `str.lstrip()` (whitespace). -/
def lstripWs (s : Str) : Str := s.dropWhile isPyWs

/-- Python `str.rstrip()` (whitespace). -/
def rstripWs (s : Str) : Str := (s.reverse.dropWhile isPyWs).reverse

/-- Python `str.strip()` (whitespace). -/
def stripWs (s : Str) : Str := rstripWs (lstripWs s)

/-- Python `a.startswith(b)`. -/
def startsW : Str → Str → Bool
  | _, [] => true
  | [], _ :: _ => false
  | c :: cs, d :: ds => c = d && startsW cs ds

/-- Python `a.endswith(b)`. -/
def endsW (s p : Str) : Bool := startsW s.reverse p.reverse

/-- Python `b in a` (substring containment). -/
def containsSub (s p : Str) : Bool :=
  match s with
  | [] => startsW [] p
  | _ :: rest => startsW s p || containsSub rest p

/-- Python `a.split(sep)` for a non-empty separator (fuel-based so that it
reduces definitionally; `s.length + 1` fuel always suffices). -/
def splitAux (sep : Str) : Nat → Str → List Str
  | 0, s => [s]
  | _ + 1, [] => [[]]
  | fuel + 1, c :: rest =>
    if sep ≠ [] && startsW (c :: rest) sep then
      [] :: splitAux sep fuel ((c :: rest).drop sep.length)
    else
      match splitAux sep fuel rest with
      | [] => [[c]]
      | chunk :: more => (c :: chunk) :: more

def splitOnSub (s sep : Str) : List Str := splitAux sep (s.length + 1) s

/-- Python `a.split(sep, 1)`: split at the first occurrence only. -/
def splitOnce (s sep : Str) : Str × Str :=
  match s with
  | [] => ([], [])
  | c :: rest =>
    if startsW (c :: rest) sep then ([], (c :: rest).drop sep.length)
    else
      let (h, t) := splitOnce rest sep
      (c :: h, t)

/-- Python `a.replace(old, new)` for a non-empty `old`: left-to-right,
non-overlapping replacement of every occurrence (fuel-based). -/
def replAux (old new : Str) : Nat → Str → Str
  | 0, s => s
  | _ + 1, [] => []
  | fuel + 1, c :: rest =>
    if old ≠ [] && startsW (c :: rest) old then
      new ++ replAux old new fuel ((c :: rest).drop old.length)
    else
      c :: replAux old new fuel rest

def replaceAll (s old new : Str) : Str := replAux old new (s.length + 1) s

/-- Decimal digits of a natural number (Python `str(n)` for `n : int ≥ 0`). -/
def natToStr (n : Nat) : Str := Nat.toDigits 10 n

/-- Python `int(digits)` for a digit string. -/
def strToNat (s : Str) : Nat :=
  s.foldl (fun acc c => acc * 10 + (c.toNat - '0'.toNat)) 0

/-! ### A small regex engine

The classifier and the fix strategies use `re.findall` / `re.sub` with a
fixed set of patterns.  The patterns are embedded as `Rex` values and run
by a backtracking matcher that returns every way the pattern can match a
prefix of the input, in Python's preference order (alternatives left to
right, greedy repetition longest first, lazy repetition shortest first).
Every repetition in the source patterns is over a single-character class,
so repetition is primitive over a character predicate (`starC`).
-/

inductive Rex where
  /-- empty pattern -/
  | eps
  /-- one character satisfying the predicate (a character class) -/
  | cls (p : Char → Bool)
  /-- a literal string -/
  | lit (s : Str)
  /-- concatenation -/
  | cat (a b : Rex)
  /-- alternation, left preferred -/
  | alt (a b : Rex)
  /-- `p*` over a character class; `lazy = true` for `*?` -/
  | starC (p : Char → Bool) (lazy : Bool)
  /-- capturing group `i` -/
  | group (i : Nat) (r : Rex)
  /-- Python `$` without `re.MULTILINE`: end of input, or just before a
  final newline (the remaining input is exactly `"\n"`) -/
  | eol

/-- Captured groups of one match, in capture order. -/
abbrev Caps := List (Nat × Str)

/-- Group lookup (Python match.group(i+1)). -/
def capGet (caps : Caps) (i : Nat) : Str :=
  match caps with
  | [] => []
  | (j, v) :: rest => if j = i then v else capGet rest i

/-- Suffixes of `s` left after consuming 0, 1, 2, … characters satisfying
`p`, in increasing order of consumption. -/
def starSufs (p : Char → Bool) : Str → List Str
  | [] => [[]]
  | c :: rest =>
    (c :: rest) :: (if p c then starSufs p rest else [])

/-- All ways `r` can match a prefix of `s`: the remaining suffix and the
captures, in backtracking preference order (head = preferred). -/
def rexRun : Rex → Str → List (Str × Caps)
  | .eps, s => [(s, [])]
  | .cls _, [] => []
  | .cls p, c :: rest => if p c then [(rest, [])] else []
  | .lit l, s => if startsW s l then [(s.drop l.length, [])] else []
  | .cat a b, s =>
    (rexRun a s).flatMap (fun rc =>
      (rexRun b rc.1).map (fun rc2 => (rc2.1, rc.2 ++ rc2.2)))
  | .alt a b, s => rexRun a s ++ rexRun b s
  | .starC p lazy, s =>
    let sufs := starSufs p s
    (if lazy then sufs else sufs.reverse).map (fun rest => (rest, []))
  | .group i r, s =>
    (rexRun r s).map (fun rc =>
      (rc.1, rc.2 ++ [(i, s.take (s.length - rc.1.length))]))
  | .eol, s => if s = [] || s = ['\n'] then [(s, [])] else []

/-- First (preferred) match of `r` against a prefix of `s`, if any. -/
def rexFirst (r : Rex) (s : Str) : Option (Str × Caps) :=
  (rexRun r s).head?

/-- `re.findall` scan: try the pattern at each position, left to right,
non-overlapping, collecting the captures of each match.  `fuel` bounds the
recursion; `scanAll` supplies `s.length + 1`, which is always enough since
every step either consumes the match or advances one character. -/
def scanAux (r : Rex) : Nat → Str → List Caps
  | 0, _ => []
  | fuel + 1, s =>
    match rexFirst r s with
    | some (rem, caps) =>
      caps :: (if rem.length < s.length then scanAux r fuel rem
               else match s with
                    | [] => []
                    | _ :: rest => scanAux r fuel rest)
    | none =>
      match s with
      | [] => []
      | _ :: rest => scanAux r fuel rest

def scanAll (r : Rex) (s : Str) : List Caps := scanAux r (s.length + 1) s

/-- One chunk of a `re.sub` replacement template: a literal, or a group
reference `\(i+1)`. -/
abbrev RexTpl := List (Str ⊕ Nat)

def instTpl (tpl : RexTpl) (caps : Caps) : Str :=
  tpl.flatMap (fun chunk =>
    match chunk with
    | .inl l => l
    | .inr i => capGet caps i)

/-- `re.sub(pattern, template, s)`: replace every non-overlapping match,
scanning left to right. -/
def subAux (r : Rex) (tpl : RexTpl) : Nat → Str → Str
  | 0, s => s
  | fuel + 1, s =>
    match rexFirst r s with
    | some (rem, caps) =>
      instTpl tpl caps ++
        (if rem.length < s.length then subAux r tpl fuel rem
         else match rem with
              | [] => []
              | c :: rest => c :: subAux r tpl fuel rest)
    | none =>
      match s with
      | [] => []
      | c :: rest => c :: subAux r tpl fuel rest

def rexSub (r : Rex) (tpl : RexTpl) (s : Str) : Str := subAux r tpl (s.length + 1) s

/-- `re.sub` for a pattern anchored at `^` (no `re.MULTILINE`): the pattern
can only match at position 0, so at most one replacement happens. -/
def rexSubAnchored (r : Rex) (tpl : RexTpl) (s : Str) : Str :=
  match rexFirst r s with
  | some (rem, caps) => instTpl tpl caps ++ rem
  | none => s

/-! Character classes used by the source patterns. -/

/-- `.` under `re.DOTALL`. -/
def anyC (_ : Char) : Bool := true

/-- `.` without `re.DOTALL` (anything but a newline). -/
def anyNL (c : Char) : Bool := c ≠ '\n'

/-- `\d` -/
def digC (c : Char) : Bool := c.isDigit

/-- `\s` -/
def wsC (c : Char) : Bool := isPyWs c

/-- `\w` -/
def wordC (c : Char) : Bool := c.isAlphanum || c = '_'

/-- `x+?` over a class. -/
def lazyPlus (p : Char → Bool) : Rex := .cat (.cls p) (.starC p true)

/-- `x+` over a class. -/
def greedyPlus (p : Char → Bool) : Rex := .cat (.cls p) (.starC p false)

/-- `x?` (greedy option). -/
def rexOpt (r : Rex) : Rex := .alt r .eps

def rlit (s : String) : Rex := .lit s.toList

/-! ### Data model (spec section 3, from the source dictionaries) -/

/-- Closed bug-type tags (the source uses the same strings). -/
inductive BugType where
  | SYNTAX | INDENTATION | IMPORT | TYPE_ERROR | LOGIC | LINTING | UNKNOWN
deriving DecidableEq

/-- The string tag the source stores for a bug type. -/
def bugTypeName : BugType → Str
  | .SYNTAX => toL "SYNTAX"
  | .INDENTATION => toL "INDENTATION"
  | .IMPORT => toL "IMPORT"
  | .TYPE_ERROR => toL "TYPE_ERROR"
  | .LOGIC => toL "LOGIC"
  | .LINTING => toL "LINTING"
  | .UNKNOWN => toL "UNKNOWN"

/-- Bug / fix status strings used by the source. -/
inductive FixStatus where
  | Detected | Fixed | Failed
deriving DecidableEq

/-- A classified bug record (`bug_agent.py` dictionaries). -/
structure BugRec where
  file : Str
  bug_type : BugType
  line : Nat
  status : FixStatus
deriving DecidableEq

/-- Identity key `(file, bug_type, line)`. -/
abbrev IdKey := Str × BugType × Nat

def bugKey (b : BugRec) : IdKey := (b.file, b.bug_type, b.line)

namespace BugAgent

/-! Embedding of `backend/agents/bug_agent.py`. -/

/-- `BugAgent.clean_path`. -/
def clean_path (p : Str) : Str :=
  if containsSub p (toL "workspace/repo/") then
    (splitOnSub p (toL "workspace/repo/")).getD 1 []
  else if containsSub p (toL "/repo/") then
    (splitOnSub p (toL "/repo/")).getD 1 []
  else p

/-- `BugAgent._add_bug`: de-duplicate by identity key, append otherwise.
The `seen` set is modeled as the list of keys already added (it always
equals the key list of `bugs`). -/
def add_bug (acc : List BugRec × List IdKey) (f : Str) (bt : BugType) (ln : Nat) :
    List BugRec × List IdKey :=
  let clean := clean_path f
  let key : IdKey := (clean, bt, ln)
  if key ∈ acc.2 then acc
  else (acc.1 ++ [⟨clean, bt, ln, .Detected⟩], acc.2 ++ [key])

/-- Traceback-style pattern head shared by the first five matcher families
(`re.DOTALL`): `File "(.+?\.py)", line (\d+).*?` followed by the error
name(s). -/
def fileLineRex (errRex : Rex) : Rex :=
  .cat (rlit "File \"")
    (.cat (.group 0 (.cat (lazyPlus anyC) (rlit ".py")))
      (.cat (rlit "\", line ")
        (.cat (.group 1 (greedyPlus digC))
          (.cat (.starC anyC true) errRex))))

/-- `(.+?\.py):(\d+)` head shared by the line-oriented families. -/
def pathLineRex : Rex :=
  .cat (.group 0 (.cat (lazyPlus anyNL) (rlit ".py")))
    (.cat (rlit ":") (.group 1 (greedyPlus digC)))

/-- `File "(.+?\.py)", line (\d+).*?SyntaxError` (DOTALL). -/
def syntaxRex : Rex := fileLineRex (rlit "SyntaxError")

/-- `File "(.+?\.py)", line (\d+).*?(IndentationError|TabError)` (DOTALL). -/
def indentationRex : Rex :=
  fileLineRex (.group 2 (.alt (rlit "IndentationError") (rlit "TabError")))

/-- `File "(.+?\.py)", line (\d+).*?(ModuleNotFoundError|ImportError)` (DOTALL). -/
def importRex : Rex :=
  fileLineRex (.group 2 (.alt (rlit "ModuleNotFoundError") (rlit "ImportError")))

/-- `File "(.+?\.py)", line (\d+).*?(TypeError|ValueError)` (DOTALL). -/
def typeRex : Rex :=
  fileLineRex (.group 2 (.alt (rlit "TypeError") (rlit "ValueError")))

/-- `File "(.+?\.py)", line (\d+).*?(NameError|KeyError|AssertionError|AttributeError)` (DOTALL). -/
def logicRex : Rex :=
  fileLineRex (.group 2 (.alt (rlit "NameError")
    (.alt (rlit "KeyError") (.alt (rlit "AssertionError") (rlit "AttributeError")))))

/-- `(.+?\.py):(\d+):\s*AssertionError`. -/
def logicShortRex : Rex :=
  .cat pathLineRex (.cat (rlit ":") (.cat (.starC wsC false) (rlit "AssertionError")))

/-- `(.+?\.py):(\d+):(?:\d+:)?\s*(?:F401|W0611|.*unused import)`. -/
def lintRex : Rex :=
  .cat pathLineRex
    (.cat (rlit ":")
      (.cat (rexOpt (.cat (greedyPlus digC) (rlit ":")))
        (.cat (.starC wsC false)
          (.alt (rlit "F401")
            (.alt (rlit "W0611")
              (.cat (.starC anyNL false) (rlit "unused import")))))))

/-- `(.+?\.py):(\d+):(\d+)\s*-\s*error:\s*(.+)`. -/
def pyrightRex : Rex :=
  .cat pathLineRex
    (.cat (rlit ":")
      (.cat (.group 2 (greedyPlus digC))
        (.cat (.starC wsC false)
          (.cat (rlit "-")
            (.cat (.starC wsC false)
              (.cat (rlit "error:")
                (.cat (.starC wsC false) (.group 3 (greedyPlus anyNL)))))))))

/-- `ERROR collecting (.+?\.py).*?ImportError` (DOTALL). -/
def collectingRex : Rex :=
  .cat (rlit "ERROR collecting ")
    (.cat (.group 0 (.cat (lazyPlus anyC) (rlit ".py")))
      (.cat (.starC anyC true) (rlit "ImportError")))

/-- The `syntax_matches` findall of `parse`. -/
def syntaxMatches (logs : Str) : List (Str × Nat) :=
  (scanAll syntaxRex logs).map (fun caps => (capGet caps 0, strToNat (capGet caps 1)))

/-- The `indentation_matches` findall of `parse`. -/
def indentationMatches (logs : Str) : List (Str × Nat) :=
  (scanAll indentationRex logs).map (fun caps => (capGet caps 0, strToNat (capGet caps 1)))

/-- The `import_matches` findall of `parse`. -/
def importMatches (logs : Str) : List (Str × Nat) :=
  (scanAll importRex logs).map (fun caps => (capGet caps 0, strToNat (capGet caps 1)))

/-- The `type_matches` findall of `parse`. -/
def typeMatches (logs : Str) : List (Str × Nat) :=
  (scanAll typeRex logs).map (fun caps => (capGet caps 0, strToNat (capGet caps 1)))

/-- The `logic_matches` findall of `parse`. -/
def logicMatches (logs : Str) : List (Str × Nat) :=
  (scanAll logicRex logs).map (fun caps => (capGet caps 0, strToNat (capGet caps 1)))

/-- The `logic_short_matches` findall of `parse`. -/
def logicShortMatches (logs : Str) : List (Str × Nat) :=
  (scanAll logicShortRex logs).map (fun caps => (capGet caps 0, strToNat (capGet caps 1)))

/-- The `lint_matches` findall of `parse`. -/
def lintMatches (logs : Str) : List (Str × Nat) :=
  (scanAll lintRex logs).map (fun caps => (capGet caps 0, strToNat (capGet caps 1)))

/-- The `pyright_matches` findall of `parse`: `(file, line, message)`. -/
def pyrightMatches (logs : Str) : List (Str × Nat × Str) :=
  (scanAll pyrightRex logs).map (fun caps =>
    (capGet caps 0, strToNat (capGet caps 1), capGet caps 3))

/-- The `collecting_matches` findall of `parse`. -/
def collectingMatches (logs : Str) : List Str :=
  (scanAll collectingRex logs).map (fun caps => capGet caps 0)

/-- Keyword-based bug-type derivation for the pyright family
(`parse`, lines 94-104 of `bug_agent.py`). -/
def pyrightBugType (message : Str) : BugType :=
  let msg := message.map Char.toLower
  if containsSub msg (toL "import") || containsSub msg (toL "cannot be resolved") then
    .IMPORT
  else if containsSub msg (toL "type") || containsSub msg (toL "argument of type") ||
      containsSub msg (toL "cannot assign") then
    .TYPE_ERROR
  else if containsSub msg (toL "syntax") then
    .SYNTAX
  else
    .LOGIC

/-- All raw `(file, bug_type, line)` triples in the order the matcher
families run in `parse` (syntax, indentation, import, type,
logic-traceback, logic-short, lint, type-checker, collection). -/
def rawMatches (logs : Str) : List (Str × BugType × Nat) :=
  (syntaxMatches logs).map (fun t => (t.1, BugType.SYNTAX, t.2))
  ++ (indentationMatches logs).map (fun t => (t.1, BugType.INDENTATION, t.2))
  ++ (importMatches logs).map (fun t => (t.1, BugType.IMPORT, t.2))
  ++ (typeMatches logs).map (fun t => (t.1, BugType.TYPE_ERROR, t.2))
  ++ (logicMatches logs).map (fun t => (t.1, BugType.LOGIC, t.2))
  ++ (logicShortMatches logs).map (fun t => (t.1, BugType.LOGIC, t.2))
  ++ (lintMatches logs).map (fun t => (t.1, BugType.LINTING, t.2))
  ++ (pyrightMatches logs).map (fun t => (t.1, pyrightBugType t.2.2, t.2.1))
  ++ (collectingMatches logs).map (fun f => (f, BugType.IMPORT, 1))

/-- `BugAgent.parse`: empty input gives no bugs; otherwise run all matcher
families in order through `_add_bug`, and fall back to one synthetic
`UNKNOWN` record when nothing parsed. -/
def parse (logs : Str) : List BugRec :=
  if logs = [] then []
  else
    let folded := (rawMatches logs).foldl (fun acc t => add_bug acc t.1 t.2.1 t.2.2) ([], [])
    if folded.1 = [] then (add_bug folded (toL "<unknown>") .UNKNOWN 1).1
    else folded.1

end BugAgent

/-! ### File-system model

`backend/agents/fix_agent.py` reads and writes files under the repository
working copy.  The file system is modeled as an association list of
regular files (path to content) plus the set of existing directories; a
path is never both.  `open(path)` for reading fails unless the path is a
regular file; `open(path, "w")` on a path that does not exist fails unless
the containing directory exists (Python raises `FileNotFoundError`).
-/

def lookupD : List (Str × Str) → Str → Option Str
  | [], _ => none
  | (k, v) :: rest, p => if k = p then some v else lookupD rest p

/-- In-place update, appending when the key is absent. -/
def writeD : List (Str × Str) → Str → Str → List (Str × Str)
  | [], p, c => [(p, c)]
  | (k, v) :: rest, p, c =>
    if k = p then (k, c) :: rest else (k, v) :: writeD rest p c

structure FS where
  files : List (Str × Str)
  dirs : List Str
deriving DecidableEq

def FS.read (fs : FS) (p : Str) : Option Str := lookupD fs.files p

def FS.isFile (fs : FS) (p : Str) : Bool := (fs.read p).isSome

def FS.isDir (fs : FS) (p : Str) : Bool := decide (p ∈ fs.dirs)

/-- `os.path.exists`: true for regular files and directories. -/
def FS.pathExists (fs : FS) (p : Str) : Bool := fs.isFile p || fs.isDir p

/-- `open(p).read()` and friends; raises unless `p` is a regular file. -/
def FS.openRead (fs : FS) (p : Str) : Except Str Str :=
  match fs.read p with
  | some c => .ok c
  | none => .error (toL "IOError")

/-- `open(p, "w").write(c)` on an existing regular file (in-place update). -/
def FS.write (fs : FS) (p c : Str) : FS := { fs with files := writeD fs.files p c }

/-- `os.path.join(a, b)` for a non-empty root `a` without a trailing
separator and a relative `b` — the shapes the orchestrator passes. -/
def pjoin (a b : Str) : Str := a ++ toL "/" ++ b

/-- Index just past the last `/` of `p` (`p.rfind("/") + 1`, `0` if none). -/
def rfindSlashP1 : Str → Nat
  | [] => 0
  | c :: rest =>
    let r := rfindSlashP1 rest
    if r = 0 then (if c = '/' then 1 else 0) else r + 1

/-- `os.path.dirname` (posixpath: keep the head up to the last separator,
stripping trailing separators unless the head is all separators). -/
def dirname (p : Str) : Str :=
  let head := p.take (rfindSlashP1 p)
  if head ≠ [] && head.any (fun c => c ≠ '/') then
    (head.reverse.dropWhile (fun c => c = '/')).reverse
  else head

/-- `open(p, "w")` creating a new empty file: raises `FileNotFoundError`
when the containing directory does not exist. -/
def FS.create (fs : FS) (p : Str) : Except Str FS :=
  if dirname p ∈ fs.dirs then .ok (fs.write p []) else .error (toL "FileNotFoundError")

/-- Python `file.readlines()`: split after each newline, keeping the
newline characters. -/
def readlinesAux : Str → Str → List Str
  | acc, [] => if acc = [] then [] else [acc.reverse]
  | acc, c :: rest =>
    if c = '\n' then (acc.reverse ++ ['\n']) :: readlinesAux [] rest
    else readlinesAux (c :: acc) rest

def readlines (s : Str) : List Str := readlinesAux [] s

/-- Python `file.writelines(lines)`. -/
def writelines (lines : List Str) : Str := lines.flatMap id

/-- `", ".join`-style helper. -/
def joinSep : List Str → Str → Str
  | [], _ => []
  | [x], _ => x
  | x :: y :: rest, sep => x ++ sep ++ joinSep (y :: rest) sep

/-- Python `str.splitlines()` restricted to `\n` separators (the only line
break the pipeline's texts contain). -/
def splitlinesNL (s : Str) : List Str :=
  if s = [] then []
  else
    let parts := splitOnSub s (toL "\n")
    if parts.getLast? = some [] then parts.dropLast else parts

/-! ### Embedding of `backend.2/agents/groq_ai_agent.py`

The Groq API call and Python's `compile` builtin are external: the model
response is a parameter `oracle` (`none` models an API error, a timeout,
or any other exception, all swallowed by the source's blanket handlers),
and syntax validation is a parameter `pyParses` (Python's
`compile(text, path, "exec")`).
-/

namespace GroqAIAgent

/-- `GroqAIAgent.fix_file` / `fix_file_async`: never raises, returns
whether the file was overwritten.  `fixed = output.strip() + "\n"` is
never the empty string, so the `if not fixed` guard in the source can
never fire; it is kept here verbatim. -/
def fix_file (oracle : Str → BugType → Nat → Str → Option Str) (pyParses : Str → Bool)
    (fs : FS) (filePath : Str) (bt : BugType) (lineNo : Nat) : Bool × FS :=
  if !(fs.pathExists filePath) then (false, fs)
  else
    match fs.openRead filePath with
    | .error _ => (false, fs)
    | .ok source =>
      match oracle filePath bt lineNo source with
      | none => (false, fs)
      | some outputText =>
        let fixed := stripWs outputText ++ ['\n']
        if fixed = [] || stripWs fixed = stripWs source then (false, fs)
        else if endsW filePath (toL ".py") && !(pyParses fixed) then (false, fs)
        else (true, fs.write filePath fixed)

end GroqAIAgent

/-! ### Embedding of `backend/agents/fix_agent.py` -/

/-- Bug dictionary as queued by the orchestrator for `apply_fixes`
(classifier fields plus `failed_attempts`, plus `force_groq` on escalated
bugs; `apply_fixes` never reads the last two). -/
structure QBug where
  file : Str
  bug_type : BugType
  line : Nat
  status : FixStatus
  failed_attempts : Nat
  force_groq : Bool
deriving DecidableEq

/-- Fix outcome dictionary produced by `apply_fixes`. -/
structure FixOutcome where
  file : Str
  bug_type : BugType
  line : Nat
  status : FixStatus
  commit_message : Str
deriving DecidableEq

def outcomeKey (o : FixOutcome) : IdKey := (o.file, o.bug_type, o.line)

/-- External collaborators of the fix engine: the ruff auto-fix tool
(modeled as a transform of the target file's content; `_run_safe` ignores
its exit status), the Groq oracle, and Python's `compile` validator. -/
structure FixEnv where
  ruffT : Str → Str
  oracle : Str → BugType → Nat → Str → Option Str
  pyParses : Str → Bool

namespace FixAgent

/-- `,\s*,+` -/
def commaCommaRex : Rex :=
  .cat (rlit ",") (.cat (.starC wsC false) (greedyPlus (fun c => c = ',')))

/-- `\s*:\s*$` -/
def trailColonRex : Rex :=
  .cat (.starC wsC false) (.cat (rlit ":") (.cat (.starC wsC false) .eol))

/-- `,\s*$` -/
def trailCommaRex : Rex := .cat (rlit ",") (.cat (.starC wsC false) .eol)

/-- `\s+` -/
def wsRunRex : Rex := greedyPlus wsC

/-- The block-opening keywords `fix_syntax_issue` appends a colon to. -/
def colonTargets : List Str :=
  [toL "def ", toL "class ", toL "if ", toL "elif ", toL "else", toL "for ",
   toL "while ", toL "try", toL "except ", toL "finally", toL "with "]

/-- `FixAgent.fix_syntax_issue`. -/
def fix_syntax_issue (fs : FS) (filePath : Str) (lineNo : Nat) : Except Str (Bool × FS) := do
  let content ← fs.openRead filePath
  let lines := readlines content
  if lineNo = 0 || lines.length < lineNo then
    pure (false, fs)
  else
    let line := (lines.get? (lineNo - 1)).getD []
    -- Common broken import patterns: duplicate commas / accidental trailing colon
    let (lines, changed) :=
      if startsW (lstripWs line) (toL "import ") || startsW (lstripWs line) (toL "from ") then
        let cleaned := rstripWs line
        let cleaned := rexSub commaCommaRex [.inl (toL ", ")] cleaned
        let cleaned := rexSub trailColonRex [] cleaned
        let cleaned := rexSub trailCommaRex [] cleaned
        let cleaned := stripWs (rexSub wsRunRex [.inl (toL " ")] cleaned)
        -- Normalize comma spacing in import lists.
        let cleaned :=
          if startsW cleaned (toL "import ") then
            let ht := splitOnce cleaned (toL "import ")
            let modules := ((splitOnSub ht.2 (toL ",")).map stripWs).filter (fun m => m ≠ [])
            if modules ≠ [] then
              stripWs (ht.1 ++ toL "import " ++ joinSep modules (toL ", "))
            else cleaned
          else cleaned
        if cleaned ≠ rstripWs line then
          (lines.set (lineNo - 1) (cleaned ++ ['\n']), true)
        else (lines, false)
      else (lines, false)
    -- Missing colon in blocks/defs
    let current := (lines.get? (lineNo - 1)).getD []
    let stripped := stripWs current
    let (lines, changed) :=
      if colonTargets.any (fun t => startsW stripped t) && !(endsW stripped (toL ":")) then
        (lines.set (lineNo - 1) (rstripWs current ++ toL ":\n"), true)
      else (lines, changed)
    if changed then pure (true, fs.write filePath (writelines lines))
    else pure (false, fs)

/-- `FixAgent.fix_indentation_issue`. -/
def fix_indentation_issue (fs : FS) (filePath : Str) (lineNo : Nat) :
    Except Str (Bool × FS) := do
  let content ← fs.openRead filePath
  let lines := readlines content
  if lineNo = 0 || lines.length < lineNo then
    pure (false, fs)
  else
    let original := (lines.get? (lineNo - 1)).getD []
    let updated := replaceAll original (toL "\t") (toL "    ")
    let changed : Bool := updated ≠ original
    -- If previous line opens a block and current line is not indented, indent it.
    let (updated, changed) :=
      if 1 < lineNo && endsW (rstripWs ((lines.get? (lineNo - 2)).getD [])) (toL ":") then
        if stripWs updated ≠ [] && !(startsW updated (toL " ") || startsW updated (toL "\t")) then
          (toL "    " ++ updated, true)
        else (updated, changed)
      else (updated, changed)
    let lines := lines.set (lineNo - 1) updated
    if changed then pure (true, fs.write filePath (writelines lines))
    else pure (false, fs)

/-- `FixAgent.fix_with_ruff`: runs the cached venv's ruff on the one file
(`_run_safe` swallows errors and its result is ignored); success is
defined as the file content actually changing. -/
def fix_with_ruff (ruffT : Str → Str) (fs : FS) (repoPath relFile : Str) :
    Except Str (Bool × FS) := do
  let targetFile := pjoin repoPath relFile
  if !(fs.pathExists targetFile) then
    pure (false, fs)
  else do
    let before ← fs.openRead targetFile
    let pythonBin := pjoin (pjoin (pjoin repoPath (toL ".venv")) (toL "bin")) (toL "python")
    if !(fs.pathExists pythonBin) then
      pure (false, fs)
    else do
      let fs2 := fs.write targetFile (ruffT before)
      let after ← fs2.openRead targetFile
      pure ((before ≠ after : Bool), fs2)

/-- `([+\-*/%]\s*)["\'](-?\d+(?:\.\d+)?)["\']` -/
def quotedNumRex : Rex :=
  .cat (.group 0 (.cat (.cls (fun c => c = '+' || c = '-' || c = '*' || c = '/' || c = '%'))
    (.starC wsC false)))
    (.cat (.cls (fun c => c = '"' || c = '\''))
      (.cat (.group 1 (.cat (rexOpt (rlit "-"))
        (.cat (greedyPlus digC) (rexOpt (.cat (rlit ".") (greedyPlus digC))))))
        (.cls (fun c => c = '"' || c = '\''))))

/-- `int\(([^()]+)\)` -/
def intCastRex : Rex :=
  .cat (rlit "int(")
    (.cat (.group 0 (greedyPlus (fun c => c ≠ '(' && c ≠ ')'))) (rlit ")"))

/-- `FixAgent.fix_type_error`. -/
def fix_type_error (fs : FS) (filePath : Str) (lineNo : Nat) : Except Str (Bool × FS) := do
  let content ← fs.openRead filePath
  let lines := readlines content
  if lineNo = 0 || lines.length < lineNo then
    pure (false, fs)
  else
    let line := (lines.get? (lineNo - 1)).getD []
    -- If arithmetic uses quoted numbers, coerce to numeric literals.
    let normalized := rexSub quotedNumRex [.inr 0, .inr 1] line
    let (line, changed) :=
      if normalized ≠ line then (normalized, true) else (line, false)
    -- If int(...) conversion is failing for float-like strings, attempt float-first cast.
    let (line, changed) :=
      if containsSub line (toL "int(") && !(containsSub line (toL "int(float(")) then
        let wrapped := rexSub intCastRex [.inl (toL "int(float("), .inr 0, .inl (toL "))")] line
        if wrapped ≠ line then (wrapped, true) else (line, changed)
      else (line, changed)
    if changed then pure (true, fs.write filePath (writelines (lines.set (lineNo - 1) line)))
    else pure (false, fs)

/-- ASCII `[A-Za-z_]` -/
def identHeadC (c : Char) : Bool := ('A' ≤ c && c ≤ 'Z') || ('a' ≤ c && c ≤ 'z') || c = '_'

/-- ASCII `\w` -/
def identC (c : Char) : Bool := identHeadC c || c.isDigit

/-- `^(\s*return\s+)([A-Za-z_]\w*)\[(.+)\](\s*)$` (anchored, no MULTILINE). -/
def returnIdxRex : Rex :=
  .cat (.group 0 (.cat (.starC wsC false) (.cat (rlit "return") (greedyPlus wsC))))
    (.cat (.group 1 (.cat (.cls identHeadC) (.starC identC false)))
      (.cat (rlit "[")
        (.cat (.group 2 (greedyPlus anyNL))
          (.cat (rlit "]") (.cat (.group 3 (.starC wsC false)) .eol)))))

/-- `FixAgent.fix_logic_issue`. -/
def fix_logic_issue (fs : FS) (filePath : Str) (lineNo : Nat) : Except Str (Bool × FS) := do
  let content ← fs.openRead filePath
  let lines := readlines content
  if lineNo = 0 || lines.length < lineNo then
    pure (false, fs)
  else
    let line := (lines.get? (lineNo - 1)).getD []
    -- Convert direct dict indexing in return paths to safe access.
    let safeGet :=
      rexSubAnchored returnIdxRex
        [.inr 0, .inr 1, .inl (toL ".get("), .inr 2, .inl (toL ")"), .inr 3] line
    let (line, changed) :=
      if safeGet ≠ line then (safeGet, true) else (line, false)
    -- Prefer true division when floor-division causes assertion mismatches.
    let (line, changed) :=
      if containsSub line (toL "//") then (replaceAll line (toL "//") (toL "/"), true)
      else (line, changed)
    if changed then pure (true, fs.write filePath (writelines (lines.set (lineNo - 1) line)))
    else pure (false, fs)

/-- `FixAgent.fix_missing_init`: creates `__init__.py` next to the module
file.  The `open(init_file, "w")` call is unguarded in the source: it
raises when the containing directory does not exist. -/
def fix_missing_init (fs : FS) (repoPath moduleFile : Str) : Except Str (Bool × FS) :=
  let moduleDir := dirname (pjoin repoPath moduleFile)
  if moduleDir = [] then .ok (false, fs)
  else
    let initFile := pjoin moduleDir (toL "__init__.py")
    if fs.pathExists initFile then .ok (false, fs)
    else do
      let fs2 ← fs.create initFile
      pure (true, fs2)

/-- One iteration of the `apply_fixes` loop body: deterministic dispatch by
bug type (guarded by `os.path.exists` except for IMPORT), then the Groq
fallback for non-UNKNOWN bugs with a concrete file. -/
def fixOne (fe : FixEnv) (repoPath : Str) (fs : FS) (bug : QBug) :
    Except Str (FixOutcome × FS) := do
  let filePath := pjoin repoPath bug.file
  let (fixed, fs1) ←
    if bug.bug_type = .SYNTAX && fs.pathExists filePath then
      fix_syntax_issue fs filePath bug.line
    else if bug.bug_type = .INDENTATION && fs.pathExists filePath then
      fix_indentation_issue fs filePath bug.line
    else if bug.bug_type = .LINTING && fs.pathExists filePath then
      fix_with_ruff fe.ruffT fs repoPath bug.file
    else if bug.bug_type = .TYPE_ERROR && fs.pathExists filePath then
      fix_type_error fs filePath bug.line
    else if bug.bug_type = .LOGIC && fs.pathExists filePath then
      fix_logic_issue fs filePath bug.line
    else if bug.bug_type = .IMPORT then
      fix_missing_init fs repoPath bug.file
    else
      pure (false, fs)
  let (fixed, fs2) :=
    if !fixed && bug.bug_type ≠ .UNKNOWN && bug.file ≠ toL "<unknown>" then
      GroqAIAgent.fix_file fe.oracle fe.pyParses fs1 filePath bug.bug_type bug.line
    else (fixed, fs1)
  let commitMessage :=
    if fixed then toL "[AI-AGENT] Fix " ++ bugTypeName bug.bug_type ++ toL " error"
    else toL "[AI-AGENT] Could not auto-fix " ++ bugTypeName bug.bug_type
  pure (⟨bug.file, bug.bug_type, bug.line,
         if fixed then .Fixed else .Failed, commitMessage⟩, fs2)

/-- `FixAgent.apply_fixes`: fold `fixOne` over the batch.  An exception
inside a strategy propagates (there is no handler in the source), aborting
the rest of the batch. -/
def apply_fixes (fe : FixEnv) (repoPath : Str) (fs : FS) :
    List QBug → Except Str (List FixOutcome × FS)
  | [] => .ok ([], fs)
  | bug :: rest => do
    let (out, fs2) ← fixOne fe repoPath fs bug
    let (outs, fs3) ← apply_fixes fe repoPath fs2 rest
    pure (out :: outs, fs3)

end FixAgent

/-! ### Embedding of `backend.2/utils/event_bus.py` -/

structure RtEvent where
  id : Nat
  type : Str
  message : Str
  timestamp : Nat
deriving DecidableEq

/-- `RuntimeEventBus` state: `_events` is a `deque(maxlen=max_events)`,
`_next_id` starts at 1. -/
structure BusState where
  events : List RtEvent
  nextId : Nat
  maxEvents : Nat
deriving DecidableEq

namespace RuntimeEventBus

/-- `RuntimeEventBus()` with the default `max_events=2000`. -/
def init : BusState := ⟨[], 1, 2000⟩

/-- `publish`: append an event with the next id (the deque drops the
oldest entries beyond `maxEvents`) and return the assigned id.  The
`time.time()` timestamp is a parameter. -/
def publish (b : BusState) (type message : Str) (ts : Nat) : Nat × BusState :=
  let e : RtEvent := ⟨b.nextId, type, message, ts⟩
  let es := b.events ++ [e]
  let es := if b.maxEvents < es.length then es.drop (es.length - b.maxEvents) else es
  (e.id, { b with events := es, nextId := b.nextId + 1 })

/-- `get_since(last_id)`: the retained events with `id > last_id`. -/
def get_since (b : BusState) (lastId : Nat) : List RtEvent :=
  b.events.filter (fun e => lastId < e.id)

/-- State after `publish`ing a whole list of `(type, message, timestamp)`
triples to a fresh bus. -/
def ofList (msgs : List (Str × Str × Nat)) : BusState :=
  msgs.foldl (fun b m => (publish b m.1 m.2.1 m.2.2).2) init

/-- Publishing more triples to an existing bus. -/
def extend (b : BusState) (msgs : List (Str × Str × Nat)) : BusState :=
  msgs.foldl (fun b m => (publish b m.1 m.2.1 m.2.2).2) b

end RuntimeEventBus

/-! ### Embedding of `backend/utils/status_manager.py` -/

/-- The `StatusManager._state` dictionary plus its step timeline.  `error`
is `none` when the key is absent. -/
structure SMState where
  state : Str
  current_step : Str
  iteration : Nat
  total_iterations : Nat
  failures : Nat
  fixes_applied : Nat
  branch_name : Str
  error : Option Str
  timeline : List (Str × Str)
deriving DecidableEq

namespace StatusManager

def init : SMState := ⟨toL "IDLE", [], 0, 0, 0, 0, [], none, []⟩

/-- `reset`: note the source uses `dict.update`, so a leftover `error` key
from a previous run is not removed. -/
def reset (sm : SMState) (totalIterations : Nat) (branch : Str) : SMState :=
  { sm with state := toL "RUNNING", current_step := toL "Starting", iteration := 0,
            total_iterations := totalIterations, failures := 0, fixes_applied := 0,
            branch_name := branch, timeline := [] }

def set_step (sm : SMState) (step : Str) (iteration : Option Nat) : SMState :=
  let sm := match iteration with
    | some i => { sm with iteration := i }
    | none => sm
  { sm with current_step := step,
            timeline := sm.timeline ++ [(step, toL "In-Progress")] }

def mark_step (sm : SMState) (step status : Str) : SMState :=
  { sm with timeline := sm.timeline ++ [(step, status)] }

def update_counts (sm : SMState) (failures fixesApplied : Option Nat) : SMState :=
  let sm := match failures with
    | some f => { sm with failures := f }
    | none => sm
  match fixesApplied with
  | some f => { sm with fixes_applied := f }
  | none => sm

/-- `set_state`: an empty `error` argument removes the `error` key. -/
def set_state (sm : SMState) (state : Str) (error : Str) : SMState :=
  if error ≠ [] then { sm with state := state, error := some error }
  else { sm with state := state, error := none }

def set_branch (sm : SMState) (branch : Str) : SMState :=
  { sm with branch_name := branch }

end StatusManager

/-! ### Embedding of `backend.2/orchestrator.py` -/

/-- One entry of the orchestrator's run timeline. -/
structure TimelineEntry where
  run : Nat
  status : Str
  timestamp : Str
deriving DecidableEq

/-- The orchestrator's `self.status` dictionary.  The wall-clock fields
(`started_at`, `ended_at`, `total_time_seconds`) are environment-supplied
metadata and are not modeled. -/
structure OStatus where
  state : Str
  error : Option Str
deriving DecidableEq

/-- Run-scoped orchestrator state (a freshly constructed `Orchestrator`). -/
structure OrchSt where
  timeline : List TimelineEntry
  fixes : List FixOutcome
  fix_index : List (IdKey × Nat)
  bug_fail_counts : List (IdKey × Nat)
  status : OStatus
  sm : SMState
  bus : BusState
  total_failures : Nat
  total_fixes : Nat
  total_commits : Nat
deriving DecidableEq

def lookupK : List (IdKey × Nat) → IdKey → Option Nat
  | [], _ => none
  | (k, v) :: rest, key => if k = key then some v else lookupK rest key

/-- Python dict assignment `d[key] = v`. -/
def setK : List (IdKey × Nat) → IdKey → Nat → List (IdKey × Nat)
  | [], key, v => [(key, v)]
  | (k, w) :: rest, key, v =>
    if k = key then (k, v) :: rest else (k, w) :: setK rest key v

/-- Python `d.pop(key, None)`. -/
def eraseK : List (IdKey × Nat) → IdKey → List (IdKey × Nat)
  | [], _ => []
  | (k, w) :: rest, key => if k = key then rest else (k, w) :: eraseK rest key

def fixStatusName : FixStatus → Str
  | .Detected => toL "Detected"
  | .Fixed => toL "Fixed"
  | .Failed => toL "Failed"

/-- External collaborators of a run, indexed by iteration where the run
calls them repeatedly.  `Except.error` models the call raising. -/
structure OrchEnv where
  clone : Except Str Str
  create_branch : Except Str Str
  run_tests : Nat → FS → Except Str (Option Str × FS)
  commit_push : Nat → List FixOutcome → Except Str Bool
  fixEnv : Nat → FixEnv
  resultsGenerate : Except Str Unit
  archiveRepo : Except Str Unit
  fs0 : FS
  runAt : Nat → Str

namespace Orchestrator

/-- `self.max_bug_attempts = 2`. -/
def max_bug_attempts : Nat := 2

/-- `Orchestrator._log`: print plus `event_bus.publish("log", message)`
(the wall-clock timestamp is not modeled; `publish` receives 0). -/
def logMsg (st : OrchSt) (message : Str) : OrchSt :=
  { st with bus := (RuntimeEventBus.publish st.bus (toL "log") message 0).2 }

def withSM (st : OrchSt) (f : SMState → SMState) : OrchSt := { st with sm := f st.sm }

/-- `Orchestrator._upsert_fixes`, acting on `(self.fixes, self._fix_index)`. -/
def upsert_fixes (acc : List FixOutcome × List (IdKey × Nat)) (fixes : List FixOutcome) :
    List FixOutcome × List (IdKey × Nat) :=
  fixes.foldl (fun acc item =>
    let key := outcomeKey item
    match lookupK acc.2 key with
    | none => (acc.1 ++ [item], acc.2 ++ [(key, acc.1.length)])
    | some pos =>
      let existing := (acc.1.get? pos).getD item
      -- Prefer successful resolution over repeated failures.
      if existing.status ≠ .Fixed && item.status = .Fixed then
        (acc.1.set pos item, acc.2)
      else
        -- Keep latest commit message/status for visibility.
        (acc.1.set pos item, acc.2)) acc

/-- Bug-detection logging of the loop body (`run`, lines 109-119). -/
def logDetected (st : OrchSt) (bugs : List BugRec) (ftext : Str) : OrchSt :=
  if bugs ≠ [] then
    let st := logMsg st (toL "Detected " ++ natToStr bugs.length ++ toL " failures")
    (bugs.enum).foldl (fun st ib =>
      logMsg st (toL " Failure #" ++ natToStr (ib.1 + 1) ++ toL ": " ++
        bugTypeName ib.2.bug_type ++ toL " at " ++ ib.2.file ++ toL ":" ++
        natToStr ib.2.line)) st
  else
    let st := logMsg st (toL "Tests failed but no parseable failures; marking UNKNOWN")
    let snippet := stripWs (joinSep ((splitlinesNL ftext).take 5) (toL "\n"))
    if snippet ≠ [] then logMsg st (toL " Raw failure snippet: " ++ snippet) else st

/-- Failure-counter maintenance after a fix pass (`run`, lines 139-144):
clear the counter on success, increment it on failure. -/
def updateFailCounts (st : OrchSt) (fixes : List FixOutcome) : OrchSt :=
  fixes.foldl (fun st item =>
    let key := outcomeKey item
    if item.status = .Fixed then
      { st with bug_fail_counts := eraseK st.bug_fail_counts key }
    else
      { st with bug_fail_counts :=
          (setK st.bug_fail_counts key ((lookupK st.bug_fail_counts key).getD 0 + 1)) }) st

/-- Per-fix logging (`run`, lines 145-148). -/
def logFixes (st : OrchSt) (fixes : List FixOutcome) : OrchSt :=
  (fixes.enum).foldl (fun st ib =>
    logMsg st (toL " Fix #" ++ natToStr (ib.1 + 1) ++ toL ": " ++
      fixStatusName ib.2.status ++ toL " - " ++ bugTypeName ib.2.bug_type ++
      toL " " ++ ib.2.file ++ toL ":" ++ natToStr ib.2.line)) st

/-- Commit bookkeeping and logging (`run`, lines 159-166). -/
def commitLog (st : OrchSt) (committed : Bool) (fixedCount : Nat) : OrchSt :=
  if committed then
    let st := { st with total_commits := st.total_commits + 1 }
    logMsg st (toL "Committed fixes: " ++ natToStr fixedCount ++
      toL " (total commits: " ++ natToStr st.total_commits ++ toL ")")
  else logMsg st (toL "No changes to commit")

/-- `self._upsert_fixes(fixes)` acting on the orchestrator state. -/
def applyUpsert (st : OrchSt) (fixes : List FixOutcome) : OrchSt :=
  let upserted := upsert_fixes (st.fixes, st.fix_index) fixes
  { st with fixes := upserted.1, fix_index := upserted.2 }

/-- One iteration of the `for i in range(retry_limit)` loop of
`Orchestrator.run` (`i` is 0-based).  Returns `true` when the loop breaks
because the tests passed. -/
def iterBody (env : OrchEnv) (retryLimit : Nat) (path : Str) (i : Nat)
    (fs : FS) (st : OrchSt) : Except (Str × OrchSt) (Bool × FS × OrchSt) :=
  let runAt := env.runAt i
  let st := withSM st (fun sm => StatusManager.set_step sm (toL "Testing") (some (i + 1)))
  match env.run_tests i fs with
  | .error e => .error (e, st)
  | .ok (failures, fs1) =>
    if (failures.getD []) = [] then
      let st := logMsg st (toL "Tests run " ++ natToStr (i + 1) ++ toL "/" ++
        natToStr retryLimit ++ toL ": PASSED")
      let st := { st with timeline := st.timeline ++ [⟨i + 1, toL "PASSED", runAt⟩] }
      .ok (true, fs1, st)
    else
      let ftext := failures.getD []
      let st := { st with timeline := st.timeline ++ [⟨i + 1, toL "FAILED", runAt⟩] }
      let st := logMsg st (toL "Tests run " ++ natToStr (i + 1) ++ toL "/" ++
        natToStr retryLimit ++ toL ": FAILED")
      let st := withSM st (fun sm => StatusManager.set_step sm (toL "Bug Detection") (some (i + 1)))
      let bugs := BugAgent.parse ftext
      let st := withSM st (fun sm => StatusManager.update_counts sm (some bugs.length) none)
      let st := logDetected st bugs ftext
      let attemptable : List QBug := bugs.map (fun bug =>
        let failedAttempts := (lookupK st.bug_fail_counts (bugKey bug)).getD 0
        if max_bug_attempts ≤ failedAttempts then
          ⟨bug.file, bug.bug_type, bug.line, bug.status, failedAttempts, true⟩
        else
          ⟨bug.file, bug.bug_type, bug.line, bug.status, failedAttempts, false⟩)
      let st := withSM st (fun sm => StatusManager.set_step sm (toL "Fixing") (some (i + 1)))
      match FixAgent.apply_fixes (env.fixEnv i) path fs1 attemptable with
      | .error e => .error (e, st)
      | .ok (fixes, fs2) =>
        let st := updateFailCounts st fixes
        let st := logFixes st fixes
        -- `fixes.extend(skipped)`: `skipped` is assigned `[]` and never appended to.
        let fixes2 := fixes ++ ([] : List FixOutcome)
        let fixedCount := (fixes2.filter (fun f => f.status = .Fixed)).length
        let st := withSM st (fun sm => StatusManager.update_counts sm none (some fixedCount))
        let st := withSM st (fun sm => StatusManager.mark_step sm (toL "Fixing") (toL "Done"))
        let st := withSM st (fun sm => StatusManager.set_step sm (toL "Commit") (some (i + 1)))
        match env.commit_push i fixes2 with
        | .error e => .error (e, st)
        | .ok committed =>
          let st := commitLog st committed fixedCount
          let st := withSM st (fun sm => StatusManager.mark_step sm (toL "Commit") (toL "Done"))
          let st := { st with total_failures := st.total_failures + bugs.length,
                              total_fixes := st.total_fixes + fixedCount }
          let st := applyUpsert st fixes2
          .ok (false, fs2, st)
/-- The `for i in range(retry_limit)` loop. -/
def runLoop (env : OrchEnv) (retryLimit : Nat) (path : Str) :
    List Nat → FS → OrchSt → Except (Str × OrchSt) (FS × OrchSt)
  | [], fs, st => .ok (fs, st)
  | i :: rest, fs, st =>
    match iterBody env retryLimit path i fs st with
    | .error e => .error e
    | .ok (broke, fs2, st2) =>
      if broke then .ok (fs2, st2) else runLoop env retryLimit path rest fs2 st2

/-- Run-scoped state after the resets at the top of `run` (on a freshly
constructed `Orchestrator`). -/
def initialState (retryLimit : Nat) : OrchSt :=
  { timeline := [], fixes := [], fix_index := [], bug_fail_counts := [],
    status := ⟨toL "RUNNING", none⟩,
    sm := StatusManager.reset StatusManager.init retryLimit [],
    bus := RuntimeEventBus.init,
    total_failures := 0, total_fixes := 0, total_commits := 0 }

/-- The `try` body of `Orchestrator.run`.  `Except.error` carries the
exception message together with the state at the raise point. -/
def runTry (env : OrchEnv) (retryLimit : Nat) (st : OrchSt) :
    Except (Str × OrchSt) OrchSt :=
  let st := logMsg st (toL "Cloning repository...")
  let st := withSM st (fun sm => StatusManager.set_step sm (toL "Cloning") (some 0))
  match env.clone with
  | .error e => .error (e, st)
  | .ok path =>
    match env.create_branch with
    | .error e => .error (e, st)
    | .ok branch =>
      let st := withSM st (fun sm => StatusManager.set_branch sm branch)
      let st := withSM st (fun sm => StatusManager.mark_step sm (toL "Clone") (toL "Done"))
      match runLoop env retryLimit path (List.range retryLimit) env.fs0 st with
      | .error e => .error e
      | .ok (_, st) =>
        match env.resultsGenerate with
        | .error e => .error (e, st)
        | .ok _ =>
          match env.archiveRepo with
          | .error e => .error (e, st)
          | .ok _ =>
            let st := { st with status := ⟨toL "COMPLETED", none⟩ }
            let st := withSM st (fun sm => StatusManager.set_state sm (toL "COMPLETED") [])
            let st := withSM st (fun sm =>
              StatusManager.set_step sm (toL "Completed") (some st.timeline.length))
            .ok st

/-- `Orchestrator.run`: the `try` body, the `except` handler (state
`FAILED` with `str(exc)`), and the `finally` block (defensive
`RUNNING → FAILED` forcing; `cleanup_repo` errors are swallowed and have
no modeled effect). -/
def run (env : OrchEnv) (retryLimit : Nat) : OrchSt :=
  let st1 :=
    match runTry env retryLimit (initialState retryLimit) with
    | .ok st => st
    | .error (e, st) =>
      let st := { st with status := ⟨toL "FAILED", some e⟩ }
      withSM st (fun sm => StatusManager.set_state sm (toL "FAILED") e)
  if st1.status.state = toL "RUNNING" then
    let st := { st1 with status := ⟨toL "FAILED", some (toL "Unknown termination")⟩ }
    withSM st (fun sm => StatusManager.set_state sm (toL "FAILED") (toL "Unknown termination"))
  else st1

end Orchestrator

/-! ## Claim theorems -/

/-! ### C1: fix-accumulator upsert -/

def c1FixedItem : FixOutcome :=
  ⟨toL "app.py", .SYNTAX, 10, .Fixed, toL "[AI-AGENT] Fix SYNTAX error"⟩

def c1FailedItem : FixOutcome :=
  ⟨toL "app.py", .SYNTAX, 10, .Failed, toL "[AI-AGENT] Could not auto-fix SYNTAX"⟩

/-- C1: the claim states that once a `Fixed` outcome is recorded for an
identity key, a later non-`Fixed` outcome for the same key never replaces
it.  Evaluating `Orchestrator._upsert_fixes` at such an input refutes
this: starting from the reset accumulator, upserting a `Fixed` outcome for
`("app.py", SYNTAX, 10)` and then a `Failed` outcome for the same key
leaves the `Failed` outcome in the accumulator — both branches of the
source's preference conditional assign the incoming item, so the
conditional (and its "prefer successful resolution" comment) is dead and
the latest outcome always wins. -/
theorem c1_fixed_overwritten_by_failed :
    Orchestrator.upsert_fixes
        (Orchestrator.upsert_fixes (([], []) : List FixOutcome × List (IdKey × Nat))
          [c1FixedItem])
        [c1FailedItem] =
      ([c1FailedItem], [((toL "app.py", BugType.SYNTAX, 10), 0)]) := rfl

/-! ### C2: escalation must bypass the deterministic strategy -/

def c2Fs : FS :=
  ⟨[(toL "repo/pkg/mod.py", toL "x = 1\n")], [toL "repo", toL "repo/pkg"]⟩

/-- The escalated IMPORT bug exactly as the orchestrator queues it once
`failed_attempts` has reached `max_bug_attempts = 2` (`force_groq := true`). -/
def c2Bug : QBug := ⟨toL "pkg/mod.py", .IMPORT, 1, .Detected, 2, true⟩

def c2FsAfter : FS :=
  ⟨[(toL "repo/pkg/mod.py", toL "x = 1\n"), (toL "repo/pkg/__init__.py", [])],
   [toL "repo", toL "repo/pkg"]⟩

/-- C2: the claim states that a bug with `failed_attempts ≥ 2` bypasses the
deterministic strategy and goes straight to the repair oracle — in
particular an IMPORT bug with `failed_attempts = 2` never runs the
missing-`__init__` strategy.  Evaluating `FixAgent.apply_fixes` on exactly
such an escalated bug refutes this: for every environment (hence every
oracle), the missing-`__init__` strategy runs, creates
`repo/pkg/__init__.py`, and reports `Fixed`; the result does not depend on
the oracle at all, because `apply_fixes` never reads the `force_groq`
flag the orchestrator sets. -/
theorem c2_escalated_import_still_runs_missing_init :
    ∀ fe : FixEnv,
      FixAgent.apply_fixes fe (toL "repo") c2Fs [c2Bug] =
        .ok ([⟨toL "pkg/mod.py", .IMPORT, 1, .Fixed, toL "[AI-AGENT] Fix IMPORT error"⟩],
          c2FsAfter) :=
  fun _ => rfl

/-! ### C6: oracle output gating -/

def c6Fs : FS := ⟨[(toL "repo/a.py", toL "x = 1\n")], [toL "repo"]⟩

/-- C6: the claim states that the oracle fallback overwrites the file only
when its output is non-empty (besides differing from the original and
parsing).  Evaluating `GroqAIAgent.fix_file` with an oracle that returns
the empty output refutes the non-empty gate: `fixed = output.strip() +
"\n"` is `"\n"`, so the source's `if not fixed` guard cannot fire, the
strip-comparison sees `"" != "x = 1"`, the syntax validator accepts the
empty program (Python's `compile("\n", path, "exec")` succeeds), and the
file is overwritten with `"\n"`. -/
theorem c6_empty_oracle_output_overwrites_file :
    GroqAIAgent.fix_file (fun _ _ _ _ => some []) (fun _ => true) c6Fs
        (toL "repo/a.py") .SYNTAX 1 =
      (true, ⟨[(toL "repo/a.py", toL "\n")], [toL "repo"]⟩) := rfl


/-! ### C7: terminal-state error discipline -/

theorem withSM_status (st : OrchSt) (f : SMState → SMState) :
    (Orchestrator.withSM st f).status = st.status := rfl

theorem withSM_sm (st : OrchSt) (f : SMState → SMState) :
    (Orchestrator.withSM st f).sm = f st.sm := rfl

theorem set_step_error (sm : SMState) (step : Str) (it : Option Nat) :
    (StatusManager.set_step sm step it).error = sm.error := by
  cases it <;> rfl

theorem set_state_empty_error (sm : SMState) (s : Str) :
    (StatusManager.set_state sm s []).error = none := rfl

/-- When the `try` body of `run` finishes without an exception, it has set
the orchestrator status to `COMPLETED` with no error and removed any
`error` key from the StatusManager. -/
theorem runTry_ok_status {env : OrchEnv} {rl : Nat} {st0 st : OrchSt}
    (h : Orchestrator.runTry env rl st0 = .ok st) :
    st.status = ⟨toL "COMPLETED", none⟩ ∧ st.sm.error = none := by
  unfold Orchestrator.runTry at h
  dsimp only at h
  split at h
  · cases h
  · split at h
    · cases h
    · split at h
      · cases h
      · split at h
        · cases h
        · split at h
          · cases h
          · injection h with h2
            subst h2
            refine ⟨rfl, ?_⟩
            rw [withSM_sm, withSM_sm, set_step_error, set_state_empty_error]

/-- Environment for the C7 counterexample: the repository clone raises an
exception whose message is the empty string (Python `str(exc)` is empty
for, e.g., a bare `Exception()`). -/
def c7Env : OrchEnv :=
  ⟨.error [], .ok [], fun _ fs => .ok (none, fs), fun _ _ => .ok false,
   fun _ => ⟨id, fun _ _ _ _ => none, fun _ => true⟩, .ok (), .ok (), ⟨[], []⟩,
   fun _ => []⟩

/-- C7 counterexample: the claim states that the terminal `FAILED` state
always carries a non-empty error string both in the orchestrator's status
record and in the StatusManager snapshot.  In the run described by
`c7Env` the terminal state is `FAILED`, but the orchestrator status
carries the empty error string and the StatusManager snapshot carries no
`error` key at all (`set_state` removes the key for a falsy message). -/
theorem c7_failed_with_empty_error :
    (Orchestrator.run c7Env 1).status.state = toL "FAILED" ∧
    (Orchestrator.run c7Env 1).status.error = some [] ∧
    (Orchestrator.run c7Env 1).sm.state = toL "FAILED" ∧
    (Orchestrator.run c7Env 1).sm.error = none :=
  ⟨rfl, rfl, rfl, rfl⟩

/-- C7 (amended): the terminal `COMPLETED` state never carries an error
(in the orchestrator status or the StatusManager snapshot), and the
terminal `FAILED` state carries the raised exception's message as its
error, which is also present in the StatusManager snapshot whenever that
message is non-empty.  (The claim's unconditional non-emptiness fails when
the exception's string form is empty, see `c7_failed_with_empty_error`.) -/
theorem c7_terminal_error_discipline :
    ∀ (env : OrchEnv) (rl : Nat),
      ((Orchestrator.run env rl).status.state = toL "COMPLETED" →
        (Orchestrator.run env rl).status.error = none ∧
        (Orchestrator.run env rl).sm.error = none) ∧
      ((Orchestrator.run env rl).status.state = toL "FAILED" →
        ∃ m, (Orchestrator.run env rl).status.error = some m ∧
          (m ≠ [] → (Orchestrator.run env rl).sm.error = some m)) := by
  intro env rl
  unfold Orchestrator.run
  cases hr : Orchestrator.runTry env rl (Orchestrator.initialState rl) with
  | ok st =>
    obtain ⟨hs, he⟩ := runTry_ok_status hr
    dsimp only
    split
    · rename_i hrun
      rw [hs] at hrun
      exact absurd hrun (by decide)
    · constructor
      · intro _
        exact ⟨by rw [hs], he⟩
      · intro hc
        rw [hs] at hc
        exact absurd hc (by decide)
  | error pe =>
    obtain ⟨e, stE⟩ := pe
    dsimp only
    split
    · rename_i hrun
      rw [withSM_status] at hrun
      dsimp only at hrun
      exact absurd hrun (by decide)
    · constructor
      · intro hc
        rw [withSM_status] at hc
        dsimp only at hc
        exact absurd hc (by decide)
      · intro _
        refine ⟨e, by rw [withSM_status], fun hm => ?_⟩
        rw [withSM_sm]
        unfold StatusManager.set_state
        simp [hm]

/-- Environment for the C7 witness: a minimal successful run. -/
def c7WEnv : OrchEnv :=
  ⟨.ok (toL "repo"), .ok (toL "B"), fun _ fs => .ok (none, fs), fun _ _ => .ok false,
   fun _ => ⟨id, fun _ _ _ _ => none, fun _ => true⟩, .ok (), .ok (), ⟨[], [toL "repo"]⟩,
   fun _ => toL "t"⟩

theorem c7_terminal_error_discipline_witness :
    (Orchestrator.run c7WEnv 1).status.error = none ∧
    (Orchestrator.run c7WEnv 1).sm.error = none :=
  (c7_terminal_error_discipline c7WEnv 1).1 rfl

/-! ### C9: EventBus cursor monotonicity -/

/-- Invariant of every reachable bus state: retained events have strictly
increasing ids, all below `nextId`. -/
def busOrdered (b : BusState) : Prop :=
  b.events.Pairwise (fun e1 e2 => e1.id < e2.id) ∧ ∀ e ∈ b.events, e.id < b.nextId

theorem busOrdered_init : busOrdered RuntimeEventBus.init :=
  ⟨List.Pairwise.nil, by intro e he; cases he⟩

theorem busOrdered_publish {b : BusState} (h : busOrdered b) (t m : Str) (ts : Nat) :
    busOrdered (RuntimeEventBus.publish b t m ts).2 := by
  obtain ⟨hp, hid⟩ := h
  have hes : (b.events ++ [(⟨b.nextId, t, m, ts⟩ : RtEvent)]).Pairwise
      (fun e1 e2 => e1.id < e2.id) := by
    rw [List.pairwise_append]
    refine ⟨hp, List.pairwise_singleton _ _, ?_⟩
    intro a ha x hx
    rw [List.mem_singleton] at hx
    subst hx
    exact hid a ha
  have hbound : ∀ e ∈ b.events ++ [(⟨b.nextId, t, m, ts⟩ : RtEvent)], e.id < b.nextId + 1 := by
    intro e he
    rcases List.mem_append.mp he with h1 | h2
    · exact Nat.lt_succ_of_lt (hid e h1)
    · rw [List.mem_singleton] at h2
      subst h2
      exact Nat.lt_succ_self _
  unfold RuntimeEventBus.publish busOrdered
  dsimp only
  split
  · exact ⟨hes.sublist (List.drop_sublist _ _),
      fun e he => hbound e ((List.drop_sublist _ _).subset he)⟩
  · exact ⟨hes, hbound⟩

theorem busOrdered_extend {b : BusState} (h : busOrdered b)
    (msgs : List (Str × Str × Nat)) : busOrdered (RuntimeEventBus.extend b msgs) := by
  induction msgs generalizing b with
  | nil => exact h
  | cons m rest ih => exact ih (busOrdered_publish h m.1 m.2.1 m.2.2)

theorem busOrdered_ofList (msgs : List (Str × Str × Nat)) :
    busOrdered (RuntimeEventBus.ofList msgs) :=
  busOrdered_extend busOrdered_init msgs

theorem get_since_gt {b : BusState} {c : Nat} {e : RtEvent}
    (h : e ∈ RuntimeEventBus.get_since b c) : c < e.id := by
  unfold RuntimeEventBus.get_since at h
  have := (List.mem_filter.mp h).2
  exact of_decide_eq_true this

/-- C9: `get_since` returns only events with id strictly above the cursor,
in increasing id order, and once the reader's cursor has advanced past
every id it has seen, no later call (after any further publishes) returns
any previously returned event again. -/
theorem c9_get_since_cursor_monotone :
    ∀ (msgs more : List (Str × Str × Nat)) (c c2 : Nat),
      (∀ e ∈ RuntimeEventBus.get_since (RuntimeEventBus.ofList msgs) c, c < e.id) ∧
      ((RuntimeEventBus.get_since (RuntimeEventBus.ofList msgs) c).map
          RtEvent.id).Pairwise (· < ·) ∧
      ((∀ e ∈ RuntimeEventBus.get_since (RuntimeEventBus.ofList msgs) c, e.id ≤ c2) →
        ∀ e2 ∈ RuntimeEventBus.get_since
            (RuntimeEventBus.extend (RuntimeEventBus.ofList msgs) more) c2,
          ∀ e1 ∈ RuntimeEventBus.get_since (RuntimeEventBus.ofList msgs) c,
            e1.id ≠ e2.id) := by
  intro msgs more c c2
  refine ⟨fun e he => get_since_gt he, ?_, ?_⟩
  · rw [List.pairwise_map]
    exact (busOrdered_ofList msgs).1.filter _
  · intro hpast e2 he2 e1 he1
    have h2 : c2 < e2.id := get_since_gt he2
    have h1 : e1.id ≤ c2 := hpast e1 he1
    omega

def c9Msgs : List (Str × Str × Nat) := [(toL "log", toL "a", 0), (toL "log", toL "b", 0)]

def c9More : List (Str × Str × Nat) := [(toL "log", toL "d", 0)]

theorem c9_get_since_cursor_monotone_witness :
    RtEvent.id ⟨1, toL "log", toL "a", 0⟩ ≠ RtEvent.id ⟨3, toL "log", toL "d", 0⟩ :=
  (c9_get_since_cursor_monotone c9Msgs c9More 0 2).2.2 (by decide)
    ⟨3, toL "log", toL "d", 0⟩ (by decide) ⟨1, toL "log", toL "a", 0⟩ (by decide)

/-! ### C10: bounded event ring -/

theorem publish_assigns_nextId (b : BusState) (t m : Str) (ts : Nat) :
    (RuntimeEventBus.publish b t m ts).1 = b.nextId ∧
    (RuntimeEventBus.publish b t m ts).2.nextId = b.nextId + 1 ∧
    (RuntimeEventBus.publish b t m ts).2.maxEvents = b.maxEvents :=
  ⟨rfl, rfl, rfl⟩

theorem extend_nil (b : BusState) : RuntimeEventBus.extend b [] = b := rfl

theorem extend_cons (b : BusState) (x : Str × Str × Nat) (rest : List (Str × Str × Nat)) :
    RuntimeEventBus.extend b (x :: rest) =
      RuntimeEventBus.extend (RuntimeEventBus.publish b x.1 x.2.1 x.2.2).2 rest := rfl

theorem ofList_eq_extend (msgs : List (Str × Str × Nat)) :
    RuntimeEventBus.ofList msgs = RuntimeEventBus.extend RuntimeEventBus.init msgs := rfl

/-- One publish step of the ring invariant: after `n` publishes the
retained events are the last `min n 2000` of the ids `1..n`. -/
theorem publish_ids_step {b : BusState} {n : Nat} (hm : b.maxEvents = 2000)
    (hn : b.nextId = n + 1)
    (hids : b.events.map RtEvent.id = List.range' (n + 1 - min n 2000) (min n 2000))
    (t m : Str) (ts : Nat) :
    (RuntimeEventBus.publish b t m ts).2.maxEvents = 2000 ∧
    (RuntimeEventBus.publish b t m ts).2.nextId = (n + 1) + 1 ∧
    (RuntimeEventBus.publish b t m ts).2.events.map RtEvent.id =
      List.range' ((n + 1) + 1 - min (n + 1) 2000) (min (n + 1) 2000) := by
  have hlen : b.events.length = min n 2000 := by
    have := congrArg List.length hids
    rwa [List.length_map, List.length_range'] at this
  unfold RuntimeEventBus.publish
  dsimp only
  rcases Nat.lt_or_ge n 2000 with hlt | hge
  · have hmin : min n 2000 = n := Nat.min_eq_left (Nat.le_of_lt hlt)
    have hminS : min (n + 1) 2000 = n + 1 := Nat.min_eq_left hlt
    have hnotfull :
        ¬ (b.maxEvents < (b.events ++ [(⟨b.nextId, t, m, ts⟩ : RtEvent)]).length) := by
      rw [hm, List.length_append, hlen, hmin]
      simp
      omega
    rw [if_neg hnotfull]
    refine ⟨hm, by rw [hn], ?_⟩
    rw [List.map_append, hids]
    dsimp only [List.map]
    rw [hn, hmin, hminS]
    have h1 : n + 1 - n = 1 := by omega
    have h2 : (n + 1) + 1 - (n + 1) = 1 := by omega
    rw [h1, h2, List.range'_concat]
    have h3 : 1 + 1 * n = n + 1 := by omega
    rw [h3]
  · have hmin : min n 2000 = 2000 := Nat.min_eq_right hge
    have hminS : min (n + 1) 2000 = 2000 := Nat.min_eq_right (by omega)
    have hfull : b.maxEvents < (b.events ++ [(⟨b.nextId, t, m, ts⟩ : RtEvent)]).length := by
      rw [hm, List.length_append, hlen, hmin]
      simp
    rw [if_pos hfull]
    refine ⟨hm, by rw [hn], ?_⟩
    have hdropn :
        (b.events ++ [(⟨b.nextId, t, m, ts⟩ : RtEvent)]).length - b.maxEvents = 1 := by
      rw [hm, List.length_append, hlen, hmin]
      simp
    rw [hdropn, List.map_drop, List.map_append, hids]
    dsimp only [List.map]
    rw [hn, hmin, hminS]
    rw [List.drop_append_of_le_length (by rw [List.length_range']; omega)]
    have e1 : n + 1 - 2000 = n - 1999 := by omega
    have e2 : (n + 1) + 1 - 2000 = (n - 1999) + 1 := by omega
    rw [e1, e2]
    have h2000 : (2000 : Nat) = 1999 + 1 := rfl
    rw [h2000, List.range'_succ, List.drop_one, List.tail_cons,
      List.range'_concat (n - 1999 + 1) 1999]
    have h4 : n - 1999 + 1 + 1 * 1999 = n + 1 := by omega
    rw [h4]

theorem extend_ids : ∀ (msgs : List (Str × Str × Nat)) (b : BusState) (n : Nat),
    b.maxEvents = 2000 → b.nextId = n + 1 →
    b.events.map RtEvent.id = List.range' (n + 1 - min n 2000) (min n 2000) →
    (RuntimeEventBus.extend b msgs).maxEvents = 2000 ∧
    (RuntimeEventBus.extend b msgs).nextId = (n + msgs.length) + 1 ∧
    (RuntimeEventBus.extend b msgs).events.map RtEvent.id =
      List.range' ((n + msgs.length) + 1 - min (n + msgs.length) 2000)
        (min (n + msgs.length) 2000) := by
  intro msgs
  induction msgs with
  | nil =>
    intro b n hm hn hids
    rw [extend_nil]
    exact ⟨hm, by rw [hn, List.length_nil], by rw [List.length_nil, Nat.add_zero]; exact hids⟩
  | cons x rest ih =>
    intro b n hm hn hids
    rw [extend_cons]
    obtain ⟨hm2, hn2, hids2⟩ := publish_ids_step hm hn hids x.1 x.2.1 x.2.2
    have hrec := ih _ (n + 1) hm2 hn2 hids2
    rw [List.length_cons]
    have harith : n + 1 + rest.length = n + (rest.length + 1) := by omega
    rwa [harith] at hrec

theorem publish_evicts_oldest {b : BusState} (t m : Str) (ts : Nat)
    (hfull : b.events.length = b.maxEvents) (hpos : 0 < b.maxEvents) :
    (RuntimeEventBus.publish b t m ts).2.events =
      b.events.drop 1 ++ [⟨b.nextId, t, m, ts⟩] := by
  unfold RuntimeEventBus.publish
  dsimp only
  have hcond : b.maxEvents < (b.events ++ [(⟨b.nextId, t, m, ts⟩ : RtEvent)]).length := by
    rw [List.length_append, hfull]
    simp
  rw [if_pos hcond]
  have hdropn :
      (b.events ++ [(⟨b.nextId, t, m, ts⟩ : RtEvent)]).length - b.maxEvents = 1 := by
    rw [List.length_append, hfull]
    simp
  rw [hdropn, List.drop_append_of_le_length (by omega)]

/-- C10: the ring keeps ids consecutive and bounded: a fresh bus assigns
id 1 to the first publish; every publish returns the id it assigns
(`nextId`) and increments `nextId`, so ids are consecutive and never
reused even after eviction; after `n` publishes the ring retains exactly
the last `min n 2000` events, with ids `n - min n 2000 + 1 .. n`; and a
publish into a full ring of positive capacity drops exactly the single
oldest retained event. -/
theorem c10_bounded_ring :
    (∀ t m ts, (RuntimeEventBus.publish RuntimeEventBus.init t m ts).1 = 1) ∧
    (∀ b t m ts, (RuntimeEventBus.publish b t m ts).1 = b.nextId ∧
      (RuntimeEventBus.publish b t m ts).2.nextId = b.nextId + 1) ∧
    (∀ msgs : List (Str × Str × Nat),
      (RuntimeEventBus.ofList msgs).events.length = min msgs.length 2000) ∧
    (∀ msgs : List (Str × Str × Nat),
      (RuntimeEventBus.ofList msgs).events.map RtEvent.id =
        List.range' (msgs.length + 1 - min msgs.length 2000) (min msgs.length 2000)) ∧
    (∀ (b : BusState) t m ts, b.events.length = b.maxEvents → 0 < b.maxEvents →
      (RuntimeEventBus.publish b t m ts).2.events =
        b.events.drop 1 ++ [⟨b.nextId, t, m, ts⟩]) := by
  have hof : ∀ msgs : List (Str × Str × Nat),
      (RuntimeEventBus.ofList msgs).events.map RtEvent.id =
        List.range' (msgs.length + 1 - min msgs.length 2000) (min msgs.length 2000) := by
    intro msgs
    rw [ofList_eq_extend]
    have := (extend_ids msgs RuntimeEventBus.init 0 rfl rfl (by rfl)).2.2
    rwa [Nat.zero_add] at this
  refine ⟨fun t m ts => rfl,
    fun b t m ts =>
      ⟨(publish_assigns_nextId b t m ts).1, (publish_assigns_nextId b t m ts).2.1⟩,
    ?_, hof, fun b t m ts hfull hpos => publish_evicts_oldest t m ts hfull hpos⟩
  intro msgs
  have := congrArg List.length (hof msgs)
  rwa [List.length_map, List.length_range'] at this

def c10FullBus : BusState :=
  ⟨[⟨1, toL "log", toL "a", 0⟩, ⟨2, toL "log", toL "b", 0⟩], 3, 2⟩

theorem c10_bounded_ring_witness :
    (RuntimeEventBus.publish c10FullBus (toL "log") (toL "c") 0).2.events =
      [⟨2, toL "log", toL "b", 0⟩, ⟨3, toL "log", toL "c", 0⟩] := by
  have h := c10_bounded_ring.2.2.2.2 c10FullBus (toL "log") (toL "c") 0 rfl (by decide)
  rw [h]
  rfl

/-! ### C4: UNKNOWN fallback -/

/-- C4: classification of the empty input yields no records, and
classification of a non-empty input on which no matcher family produces a
match yields exactly the one synthetic record
`{file: "<unknown>", bug_type: UNKNOWN, line: 1, status: Detected}`. -/
theorem c4_unknown_fallback :
    BugAgent.parse [] = [] ∧
    ∀ logs : Str, logs ≠ [] →
      BugAgent.syntaxMatches logs = [] → BugAgent.indentationMatches logs = [] →
      BugAgent.importMatches logs = [] → BugAgent.typeMatches logs = [] →
      BugAgent.logicMatches logs = [] → BugAgent.logicShortMatches logs = [] →
      BugAgent.lintMatches logs = [] → BugAgent.pyrightMatches logs = [] →
      BugAgent.collectingMatches logs = [] →
      BugAgent.parse logs = [⟨toL "<unknown>", .UNKNOWN, 1, .Detected⟩] := by
  refine ⟨rfl, ?_⟩
  intro logs hne h1 h2 h3 h4 h5 h6 h7 h8 h9
  have hraw : BugAgent.rawMatches logs = [] := by
    unfold BugAgent.rawMatches
    rw [h1, h2, h3, h4, h5, h6, h7, h8, h9]
    rfl
  unfold BugAgent.parse
  rw [if_neg hne, hraw]
  rfl

theorem c4_unknown_fallback_witness :
    (toL "hello") ≠ [] ∧
    BugAgent.parse (toL "hello") = [⟨toL "<unknown>", .UNKNOWN, 1, .Detected⟩] :=
  ⟨by decide,
   c4_unknown_fallback.2 (toL "hello") (by decide) rfl rfl rfl rfl rfl rfl rfl rfl rfl⟩

/-! ### C5: de-duplication, first-occurrence order, determinism -/

/-- Spec-side characterization of "keep the first occurrence of each
identity key, in order": fold that appends a key only when unseen. -/
def dedupStep (acc : List IdKey) (k : IdKey) : List IdKey :=
  if k ∈ acc then acc else acc ++ [k]

def dedupFirst (keys : List IdKey) : List IdKey := keys.foldl dedupStep []

/-- The key `_add_bug` de-duplicates a raw triple by. -/
def rawKey (t : Str × BugType × Nat) : IdKey :=
  (BugAgent.clean_path t.1, t.2.1, t.2.2)

theorem add_bug_eq (acc : List BugRec × List IdKey) (f : Str) (bt : BugType) (ln : Nat) :
    BugAgent.add_bug acc f bt ln =
      if (BugAgent.clean_path f, bt, ln) ∈ acc.2 then acc
      else (acc.1 ++ [⟨BugAgent.clean_path f, bt, ln, .Detected⟩],
            acc.2 ++ [(BugAgent.clean_path f, bt, ln)]) := rfl

theorem add_bug_eq_key (acc : List BugRec × List IdKey) (t : Str × BugType × Nat) :
    BugAgent.add_bug acc t.1 t.2.1 t.2.2 =
      if rawKey t ∈ acc.2 then acc
      else (acc.1 ++ [⟨(rawKey t).1, (rawKey t).2.1, (rawKey t).2.2, .Detected⟩],
            acc.2 ++ [rawKey t]) := rfl

theorem add_bug_fold_spec :
    ∀ (xs : List (Str × BugType × Nat)) (bugs : List BugRec) (seen : List IdKey),
      seen = bugs.map bugKey →
      (xs.foldl (fun acc t => BugAgent.add_bug acc t.1 t.2.1 t.2.2) (bugs, seen)).2 =
        ((xs.foldl (fun acc t => BugAgent.add_bug acc t.1 t.2.1 t.2.2) (bugs, seen)).1).map
          bugKey ∧
      ((xs.foldl (fun acc t => BugAgent.add_bug acc t.1 t.2.1 t.2.2) (bugs, seen)).1).map
          bugKey = (xs.map rawKey).foldl dedupStep seen ∧
      (∀ b ∈ (xs.foldl (fun acc t => BugAgent.add_bug acc t.1 t.2.1 t.2.2) (bugs, seen)).1,
        b ∈ bugs ∨ b.status = .Detected) := by
  intro xs
  induction xs with
  | nil =>
    intro bugs seen hseen
    exact ⟨hseen, hseen.symm, fun b hb => Or.inl hb⟩
  | cons t rest ih =>
    intro bugs seen hseen
    rw [List.foldl_cons, List.map_cons, List.foldl_cons, add_bug_eq_key]
    have hd : dedupStep seen (rawKey t) =
        if rawKey t ∈ seen then seen else seen ++ [rawKey t] := rfl
    rw [hd]
    dsimp only
    by_cases hmem : rawKey t ∈ seen
    · rw [if_pos hmem, if_pos hmem]
      exact ih bugs seen hseen
    · rw [if_neg hmem, if_neg hmem]
      have hseen2 : seen ++ [rawKey t] =
          (bugs ++ [(⟨(rawKey t).1, (rawKey t).2.1, (rawKey t).2.2, .Detected⟩ : BugRec)]).map
            bugKey := by
        rw [List.map_append, hseen]
        rfl
      obtain ⟨ha, hb, hc⟩ :=
        ih (bugs ++ [⟨(rawKey t).1, (rawKey t).2.1, (rawKey t).2.2, .Detected⟩])
          (seen ++ [rawKey t]) hseen2
      refine ⟨ha, hb, ?_⟩
      intro b hbmem
      rcases hc b hbmem with hin | hdet
      · rcases List.mem_append.mp hin with h | h
        · exact Or.inl h
        · rw [List.mem_singleton] at h
          subst h
          exact Or.inr rfl
      · exact Or.inr hdet

theorem dedup_fold_nodup :
    ∀ (ks : List IdKey) (acc : List IdKey), acc.Nodup → (ks.foldl dedupStep acc).Nodup := by
  intro ks
  induction ks with
  | nil => intro acc h; exact h
  | cons k rest ih =>
    intro acc h
    rw [List.foldl_cons]
    have hd : dedupStep acc k = if k ∈ acc then acc else acc ++ [k] := rfl
    rw [hd]
    by_cases hmem : k ∈ acc
    · rw [if_pos hmem]; exact ih acc h
    · rw [if_neg hmem]
      refine ih _ (List.nodup_append.mpr ⟨h, List.nodup_singleton _, ?_⟩)
      intro a ha hak
      rw [List.mem_singleton] at hak
      subst hak
      exact hmem ha

theorem dedup_fold_length :
    ∀ (ks : List IdKey) (acc : List IdKey),
      acc.length ≤ (ks.foldl dedupStep acc).length := by
  intro ks
  induction ks with
  | nil => intro acc; exact Nat.le_refl _
  | cons k rest ih =>
    intro acc
    rw [List.foldl_cons]
    refine Nat.le_trans ?_ (ih (dedupStep acc k))
    have hd : dedupStep acc k = if k ∈ acc then acc else acc ++ [k] := rfl
    rw [hd]
    by_cases hmem : k ∈ acc
    · rw [if_pos hmem]
    · rw [if_neg hmem, List.length_append]
      omega

/-- C5: classification keys are pairwise distinct, every returned record
is a `Detected` record, classification of the same text twice yields the
same list, and whenever any matcher fired, the key sequence of the result
is exactly the first-occurrence de-duplication of the raw
`(file, type, line)` triples in matcher-family order. -/
theorem c5_dedup_first_order :
    ∀ logs : Str,
      ((BugAgent.parse logs).map bugKey).Nodup ∧
      (∀ b ∈ BugAgent.parse logs, b.status = .Detected) ∧
      BugAgent.parse logs = BugAgent.parse logs ∧
      (BugAgent.rawMatches logs ≠ [] →
        (BugAgent.parse logs).map bugKey =
          dedupFirst ((BugAgent.rawMatches logs).map rawKey)) := by
  intro logs
  by_cases hempty : logs = []
  · subst hempty
    refine ⟨by rw [(rfl : BugAgent.parse [] = [])]; exact List.nodup_nil,
      fun b hb => absurd hb (by rw [(rfl : BugAgent.parse [] = [])]; exact List.not_mem_nil b),
      rfl, fun hraw => absurd rfl hraw⟩
  · obtain ⟨ha, hb, hc⟩ := add_bug_fold_spec (BugAgent.rawMatches logs) [] [] rfl
    have hparse : BugAgent.parse logs =
        (if ((BugAgent.rawMatches logs).foldl
              (fun acc t => BugAgent.add_bug acc t.1 t.2.1 t.2.2) ([], [])).1 = [] then
          (BugAgent.add_bug ((BugAgent.rawMatches logs).foldl
            (fun acc t => BugAgent.add_bug acc t.1 t.2.1 t.2.2) ([], []))
            (toL "<unknown>") .UNKNOWN 1).1
        else ((BugAgent.rawMatches logs).foldl
            (fun acc t => BugAgent.add_bug acc t.1 t.2.1 t.2.2) ([], [])).1) := by
      unfold BugAgent.parse
      rw [if_neg hempty]
    by_cases hf : ((BugAgent.rawMatches logs).foldl
        (fun acc t => BugAgent.add_bug acc t.1 t.2.1 t.2.2) ([], [])).1 = []
    · -- nothing parsed: parse returns the synthetic UNKNOWN record
      have hseen : ((BugAgent.rawMatches logs).foldl
          (fun acc t => BugAgent.add_bug acc t.1 t.2.1 t.2.2) ([], [])).2 = [] := by
        rw [ha, hf]
        rfl
      have hparse2 : BugAgent.parse logs =
          [⟨toL "<unknown>", .UNKNOWN, 1, .Detected⟩] := by
        rw [hparse, if_pos hf, add_bug_eq, hseen]
        rw [if_neg (List.not_mem_nil _)]
        dsimp only
        rw [hf]
        rfl
      refine ⟨by rw [hparse2]; decide, ?_, rfl, ?_⟩
      · intro b hbmem
        rw [hparse2, List.mem_singleton] at hbmem
        subst hbmem
        rfl
      · intro hraw
        exfalso
        -- a non-empty raw list always leaves a non-empty accumulator
        rcases hne : BugAgent.rawMatches logs with _ | ⟨t, rest⟩
        · exact hraw hne
        · have hlen := congrArg List.length hb
          rw [hf, hne] at hlen
          dsimp only [List.map_nil, List.length_nil] at hlen
          rw [List.map_cons, List.foldl_cons] at hlen
          have hge := dedup_fold_length (rest.map rawKey) (dedupStep [] (rawKey t))
          rw [← hlen] at hge
          have hd : dedupStep [] (rawKey t) = [rawKey t] := by
            have : dedupStep [] (rawKey t) =
                if rawKey t ∈ ([] : List IdKey) then [] else [] ++ [rawKey t] := rfl
            rw [this, if_neg (List.not_mem_nil _)]
            rfl
          rw [hd] at hge
          dsimp only [List.length_singleton] at hge
          omega
    · have hparse2 : BugAgent.parse logs = ((BugAgent.rawMatches logs).foldl
          (fun acc t => BugAgent.add_bug acc t.1 t.2.1 t.2.2) ([], [])).1 := by
        rw [hparse, if_neg hf]
      refine ⟨?_, ?_, rfl, ?_⟩
      · rw [hparse2, ← ha]
        rw [ha, hb]
        exact dedup_fold_nodup _ [] List.nodup_nil
      · intro b hbmem
        rw [hparse2] at hbmem
        rcases hc b hbmem with hin | hdet
        · exact absurd hin (List.not_mem_nil b)
        · exact hdet
      · intro _
        rw [hparse2, hb]
        rfl

def c5W : Str := toL "a.py:1: AssertionError\na.py:1: AssertionError"

theorem c5_dedup_first_order_witness :
    (BugAgent.parse c5W).map bugKey =
      dedupFirst ((BugAgent.rawMatches c5W).map rawKey) :=
  (c5_dedup_first_order c5W).2.2.2 (by decide)

/-! ### C8: budget exhaustion ends COMPLETED with an all-FAILED timeline -/

theorem logMsg_timeline (st : OrchSt) (m : Str) :
    (Orchestrator.logMsg st m).timeline = st.timeline := rfl

theorem withSM_timeline (st : OrchSt) (f : SMState → SMState) :
    (Orchestrator.withSM st f).timeline = st.timeline := rfl

theorem foldl_timeline {α : Type} (f : OrchSt → α → OrchSt) (l : List α) (st : OrchSt)
    (hf : ∀ st a, (f st a).timeline = st.timeline) :
    (l.foldl f st).timeline = st.timeline := by
  induction l generalizing st with
  | nil => rfl
  | cons x rest ih =>
    rw [List.foldl_cons, ih, hf]

theorem logDetected_timeline (st : OrchSt) (bugs : List BugRec) (ftext : Str) :
    (Orchestrator.logDetected st bugs ftext).timeline = st.timeline := by
  unfold Orchestrator.logDetected
  split
  · dsimp only
    have h1 := foldl_timeline
      (fun (st : OrchSt) (ib : Nat × BugRec) =>
        Orchestrator.logMsg st (toL " Failure #" ++ natToStr (ib.1 + 1) ++ toL ": " ++
          bugTypeName ib.2.bug_type ++ toL " at " ++ ib.2.file ++ toL ":" ++
          natToStr ib.2.line))
      bugs.enum
      (Orchestrator.logMsg st (toL "Detected " ++ natToStr bugs.length ++ toL " failures"))
      (fun _ _ => rfl)
    rw [h1, logMsg_timeline]
  · dsimp only
    split
    · rw [logMsg_timeline, logMsg_timeline]
    · rw [logMsg_timeline]

theorem updateFailCounts_timeline (st : OrchSt) (fixes : List FixOutcome) :
    (Orchestrator.updateFailCounts st fixes).timeline = st.timeline := by
  unfold Orchestrator.updateFailCounts
  refine foldl_timeline _ fixes st ?_
  intro st item
  dsimp only
  split <;> rfl

theorem logFixes_timeline (st : OrchSt) (fixes : List FixOutcome) :
    (Orchestrator.logFixes st fixes).timeline = st.timeline := by
  unfold Orchestrator.logFixes
  exact foldl_timeline
    (fun (st : OrchSt) (ib : Nat × FixOutcome) =>
      Orchestrator.logMsg st (toL " Fix #" ++ natToStr (ib.1 + 1) ++ toL ": " ++
        fixStatusName ib.2.status ++ toL " - " ++ bugTypeName ib.2.bug_type ++
        toL " " ++ ib.2.file ++ toL ":" ++ natToStr ib.2.line))
    fixes.enum st (fun _ _ => rfl)

theorem commitLog_timeline (st : OrchSt) (committed : Bool) (fixedCount : Nat) :
    (Orchestrator.commitLog st committed fixedCount).timeline = st.timeline := by
  unfold Orchestrator.commitLog
  split <;> rfl

theorem applyUpsert_timeline (st : OrchSt) (fixes : List FixOutcome) :
    (Orchestrator.applyUpsert st fixes).timeline = st.timeline := rfl

theorem iterBody_failed_timeline (env : OrchEnv) (N : Nat) (path : Str) (i : Nat)
    (fs : FS) (st : OrchSt) (broke : Bool) (fs2 : FS) (st2 : OrchSt)
    (htests : ∀ r fsr, env.run_tests i fs = .ok (r, fsr) → r.getD [] ≠ [])
    (h : Orchestrator.iterBody env N path i fs st = .ok (broke, fs2, st2)) :
    broke = false ∧
    st2.timeline = st.timeline ++ [⟨i + 1, toL "FAILED", env.runAt i⟩] := by
  unfold Orchestrator.iterBody at h
  dsimp only at h
  cases ht : env.run_tests i fs with
  | error e =>
    rw [ht] at h
    dsimp only at h
    cases h
  | ok pr =>
    obtain ⟨r, fs1⟩ := pr
    rw [ht] at h
    dsimp only at h
    rw [if_neg (htests r fs1 ht)] at h
    split at h
    · cases h
    · split at h
      · cases h
      · injection h with hz
        simp only [Prod.mk.injEq] at hz
        obtain ⟨hb, hfs, hs⟩ := hz
        refine ⟨hb.symm, ?_⟩
        rw [← hs]
        rw [applyUpsert_timeline]
        dsimp only
        rw [withSM_timeline, commitLog_timeline, withSM_timeline, withSM_timeline,
          withSM_timeline, logFixes_timeline, updateFailCounts_timeline, withSM_timeline,
          logDetected_timeline, withSM_timeline, withSM_timeline, logMsg_timeline]
        dsimp only
        rw [withSM_timeline]

theorem runLoop_all_failed (env : OrchEnv) (N : Nat) (path : Str) :
    ∀ (idxs : List Nat) (fs : FS) (st : OrchSt) (fs2 : FS) (st2 : OrchSt),
      (∀ i ∈ idxs, ∀ fsx r fsr, env.run_tests i fsx = .ok (r, fsr) → r.getD [] ≠ []) →
      Orchestrator.runLoop env N path idxs fs st = .ok (fs2, st2) →
      st2.timeline = st.timeline ++
        idxs.map (fun i => (⟨i + 1, toL "FAILED", env.runAt i⟩ : TimelineEntry)) := by
  intro idxs
  induction idxs with
  | nil =>
    intro fs st fs2 st2 _ h
    unfold Orchestrator.runLoop at h
    injection h with h2
    simp only [Prod.mk.injEq] at h2
    rw [← h2.2, List.map_nil, List.append_nil]
  | cons i rest ih =>
    intro fs st fs2 st2 hall h
    unfold Orchestrator.runLoop at h
    cases hi : Orchestrator.iterBody env N path i fs st with
    | error e =>
      rw [hi] at h
      cases h
    | ok tr =>
      obtain ⟨broke, fsx, stx⟩ := tr
      rw [hi] at h
      dsimp only at h
      obtain ⟨hb, htl⟩ := iterBody_failed_timeline env N path i fs st broke fsx stx
        (fun r fsr ht => hall i (List.mem_cons_self i rest) fs r fsr ht) hi
      subst hb
      rw [if_neg (by decide)] at h
      have hrest := ih fsx stx fs2 st2
        (fun j hj fsy r fsr ht => hall j (List.mem_cons_of_mem i hj) fsy r fsr ht) h
      rw [hrest, htl, List.map_cons, List.append_assoc, List.singleton_append]

theorem runTry_ok_parts {env : OrchEnv} {N : Nat} {st0 stF : OrchSt}
    (h : Orchestrator.runTry env N st0 = .ok stF) :
    ∃ (path : Str) (stPre : OrchSt) (fsx : FS) (stL : OrchSt),
      stPre.timeline = st0.timeline ∧
      Orchestrator.runLoop env N path (List.range N) env.fs0 stPre = .ok (fsx, stL) ∧
      stF.timeline = stL.timeline := by
  unfold Orchestrator.runTry at h
  dsimp only at h
  split at h
  · cases h
  · rename_i path hclone
    split at h
    · cases h
    · rename_i branch hbranch
      split at h
      · cases h
      · rename_i pr fsx stL hloop
        split at h
        · cases h
        · split at h
          · cases h
          · injection h with h2
            subst h2
            refine ⟨path, _, fsx, stL, ?_, hloop, ?_⟩
            · rw [withSM_timeline, withSM_timeline, withSM_timeline, logMsg_timeline]
            · rw [withSM_timeline, withSM_timeline]

/-- C8: a run whose every iteration reports test failures, and in which no
unhandled exception occurs (the `try` body finishes), ends in state
`COMPLETED` after exactly `retry_limit` iterations: the run timeline has
one `FAILED` entry per iteration `1..retry_limit`. -/
theorem c8_retry_exhausted_completed :
    ∀ (env : OrchEnv) (N : Nat) (stF : OrchSt),
      (∀ i, i < N → ∀ fsx r fsr, env.run_tests i fsx = .ok (r, fsr) → r.getD [] ≠ []) →
      Orchestrator.runTry env N (Orchestrator.initialState N) = .ok stF →
      (Orchestrator.run env N).status.state = toL "COMPLETED" ∧
      (Orchestrator.run env N).timeline =
        (List.range N).map (fun i => (⟨i + 1, toL "FAILED", env.runAt i⟩ : TimelineEntry)) ∧
      (Orchestrator.run env N).timeline.length = N ∧
      ∀ e ∈ (Orchestrator.run env N).timeline, e.status = toL "FAILED" := by
  intro env N stF htests hok
  obtain ⟨hs, _⟩ := runTry_ok_status hok
  have hrun : Orchestrator.run env N = stF := by
    unfold Orchestrator.run
    rw [hok]
    dsimp only
    rw [if_neg (by rw [hs]; decide)]
  obtain ⟨path, stPre, fsx, stL, hpre, hloop, hfin⟩ := runTry_ok_parts hok
  have htl := runLoop_all_failed env N path (List.range N) env.fs0 stPre fsx stL
    (fun i hi fsx2 r fsr ht => htests i (List.mem_range.mp hi) fsx2 r fsr ht) hloop
  have hinit : (Orchestrator.initialState N).timeline = ([] : List TimelineEntry) := rfl
  refine ⟨?_, ?_, ?_, ?_⟩
  · rw [hrun, hs]
  · rw [hrun, hfin, htl, hpre, hinit, List.nil_append]
  · rw [hrun, hfin, htl, hpre, hinit, List.nil_append, List.length_map, List.length_range]
  · intro e he
    rw [hrun, hfin, htl, hpre, hinit, List.nil_append] at he
    obtain ⟨i, hi, hei⟩ := List.mem_map.mp he
    rw [← hei]

def c8WEnv : OrchEnv :=
  ⟨.ok (toL "repo"), .ok (toL "B"), fun _ fs => .ok (some (toL "boom"), fs),
   fun _ _ => .ok false, fun _ => ⟨id, fun _ _ _ _ => none, fun _ => true⟩,
   .ok (), .ok (), ⟨[], [toL "repo"]⟩, fun _ => toL "t"⟩

theorem c8_retry_exhausted_completed_witness :
    (Orchestrator.run c8WEnv 3).status.state = toL "COMPLETED" ∧
    (Orchestrator.run c8WEnv 3).timeline.length = 3 :=
  have h := c8_retry_exhausted_completed c8WEnv 3 _
    (by
      intro i _ fsx r fsr ht
      cases ht
      decide) rfl
  ⟨h.1, h.2.2.1⟩

/-! ### C3: one outcome per record, batch isolation -/

def c3Fe : FixEnv := ⟨id, fun _ _ _ _ => none, fun _ => true⟩

def c3Fs : FS := ⟨[], [toL "repo"]⟩

/-- An IMPORT record whose resolved directory `repo/ghost` does not exist. -/
def c3Bug : QBug := ⟨toL "ghost/mod.py", .IMPORT, 1, .Detected, 0, false⟩

/-- C3 counterexample: the claim states `apply_fixes` never raises and
always returns one outcome per input record.  Evaluating it on a batch
containing an IMPORT record whose containing directory does not exist
refutes this: `fix_missing_init`'s unguarded `open(init_file, "w")`
raises `FileNotFoundError`, which propagates out of `apply_fixes`
(there is no handler around the strategy calls) and aborts the batch
with no outcome list at all. -/
theorem c3_import_missing_dir_raises :
    FixAgent.apply_fixes c3Fe (toL "repo") c3Fs [c3Bug] =
      .error (toL "FileNotFoundError") := rfl

theorem bind_ok {α β γ : Type} {x : Except γ α} {f : α → Except γ β} {b : β}
    (h : x >>= f = .ok b) : ∃ a, x = .ok a ∧ f a = .ok b := by
  cases x with
  | error e =>
    exfalso
    simp only [Bind.bind, Except.bind] at h
    exact Except.noConfusion h
  | ok a =>
    refine ⟨a, rfl, ?_⟩
    simpa only [Bind.bind, Except.bind] using h

/-- Whatever branch `fixOne` takes, the outcome it produces carries the
input bug's identity fields. -/
theorem fixOne_fields {fe : FixEnv} {repoPath : Str} {fs : FS} {bug : QBug}
    {out : FixOutcome} {fs2 : FS}
    (h : FixAgent.fixOne fe repoPath fs bug = .ok (out, fs2)) :
    out.file = bug.file ∧ out.bug_type = bug.bug_type ∧ out.line = bug.line := by
  unfold FixAgent.fixOne at h
  dsimp only at h
  repeat' split at h
  all_goals
    obtain ⟨y, _hx, hk⟩ := bind_ok h
    injection hk with hk2
    simp only [Prod.mk.injEq] at hk2
    rw [← hk2.1]
    exact ⟨rfl, rfl, rfl⟩

/-- C3 (amended): whenever `apply_fixes` completes without an exception,
it returns exactly one outcome per input record, in input order, each
outcome carrying its record's identity fields.  (The claim's "never
raises" is refuted by `c3_import_missing_dir_raises`.) -/
theorem c3_one_outcome_per_record :
    ∀ (fe : FixEnv) (repoPath : Str) (fs : FS) (bugs : List QBug)
      (outs : List FixOutcome) (fs2 : FS),
      FixAgent.apply_fixes fe repoPath fs bugs = .ok (outs, fs2) →
      outs.length = bugs.length ∧
      outs.map (fun o => (o.file, o.bug_type, o.line)) =
        bugs.map (fun b => (b.file, b.bug_type, b.line)) := by
  intro fe repoPath fs bugs
  induction bugs generalizing fs with
  | nil =>
    intro outs fs2 h
    unfold FixAgent.apply_fixes at h
    injection h with h2
    simp only [Prod.mk.injEq] at h2
    rw [← h2.1]
    exact ⟨rfl, rfl⟩
  | cons bug rest ih =>
    intro outs fs2 h
    unfold FixAgent.apply_fixes at h
    obtain ⟨pr1, h1, hk⟩ := bind_ok h
    obtain ⟨out1, fsA⟩ := pr1
    dsimp only at hk
    obtain ⟨pr2, h2, hk2⟩ := bind_ok hk
    obtain ⟨outs2, fsB⟩ := pr2
    dsimp only at hk2
    injection hk2 with hk3
    simp only [Prod.mk.injEq] at hk3
    rw [← hk3.1]
    obtain ⟨hf, hb, hl⟩ := fixOne_fields h1
    obtain ⟨ihlen, ihmap⟩ := ih fsA outs2 fsB h2
    constructor
    · rw [List.length_cons, List.length_cons, ihlen]
    · rw [List.map_cons, List.map_cons, ihmap, hf, hb, hl]

def c3WBug : QBug := ⟨toL "u.py", .UNKNOWN, 1, .Detected, 0, false⟩

theorem c3_one_outcome_per_record_witness :
    ([⟨toL "u.py", .UNKNOWN, 1, .Failed,
        toL "[AI-AGENT] Could not auto-fix UNKNOWN"⟩] : List FixOutcome).map
      (fun o => (o.file, o.bug_type, o.line)) =
    [c3WBug].map (fun b => (b.file, b.bug_type, b.line)) :=
  (c3_one_outcome_per_record c3Fe (toL "repo") c3Fs [c3WBug] _ _ rfl).2
